import Mathlib

/-!
Verification of the Accordion widget (src/shared/ts/components/accordion.ts).

The DOM fragment owned by one widget is embedded shallowly:

* an element is its `id` attribute plus an association list of its other
  attributes (`AttrMap`); `getAttribute` returns `none` for an absent
  attribute, mirroring the DOM's `null`;
* the widget state (`Accordion`) is the root's attribute map together with
  the two snapshot sequences `controllers` and `containers` captured by the
  constructor; DOM reference identity of a controller is modelled by its
  index in the `controllers` sequence (a node occurs at one index only);
* every method of the `Accordion` class that the claims mention is
  translated one-to-one below; in-place DOM mutation becomes functional
  update (`List.set`) of the element at the acted-on index.

The file is organised as: definitions (the embedding plus concrete example
widgets), then general lemmas about the embedding, then one theorem per
spec claim (with counterexamples where the spec misstates the code).
-/


/-- An attribute list: attribute name to attribute value, first match wins
(a real DOM element never holds a duplicate attribute name). -/
abbrev AttrMap := List (String × String)

/-- `element.getAttribute n`: value of the first entry named `n`, else `none`
(the DOM returns `null`). -/
def getAttr : AttrMap → String → Option String
  | [], _ => none
  | (m, v) :: rest, n => if m = n then some v else getAttr rest n

/-- `element.setAttribute n v`: replace the value in place if the name is
present, else append the new entry. -/
def setAttr : AttrMap → String → String → AttrMap
  | [], n, v => [(n, v)]
  | (m, w) :: rest, n, v =>
    if m = n then (m, v) :: rest else (m, w) :: setAttr rest n v

/-- `element.removeAttribute n`. -/
def removeAttr : AttrMap → String → AttrMap
  | [], _ => []
  | (m, w) :: rest, n =>
    if m = n then removeAttr rest n else (m, w) :: removeAttr rest n

/-- `element.hasAttribute n`. -/
def hasAttr (a : AttrMap) (n : String) : Bool :=
  (getAttr a n).isSome

/-- One DOM element: its `id` and its remaining attributes. -/
structure Elem where
  id : String
  attrs : AttrMap
deriving DecidableEq, Repr

/-- The root element as found in the document: its attributes plus the two
descendant snapshots the constructor takes (`querySelectorAll` results for
`.accordion__button` and `.accordion__section`, in document order). -/
structure RootElem where
  attrs : AttrMap
  buttons : List Elem
  sections : List Elem
deriving DecidableEq, Repr

/-- Widget state after construction: `root`, `controllers`, `containers`
fields of the `Accordion` class. -/
structure Accordion where
  root : AttrMap
  controllers : List Elem
  containers : List Elem
deriving DecidableEq, Repr

/-- `ids.any (fun d => ref === d)` — the common shape of both validation
checks: does `ref` (a `getAttribute` result) equal some id in `ids`?
`null === id` is `false` in JS, matching `decide (none = some d) = false`. -/
def refMatchesAny (ids : List String) (ref : Option String) : Bool :=
  ids.any (fun d => decide (ref = some d))

/-- Index of the first id in the list equal to `ref` (the index at which
`Array.prototype.find` succeeds), `none` when there is no match. -/
def idxOfMatch (ref : Option String) : List String → Option Nat
  | [] => none
  | d :: rest =>
    if ref = some d then some 0 else (idxOfMatch ref rest).map (· + 1)

/-- `isControllerExpanded`: `controller.getAttribute("aria-expanded") === "true"`. -/
def Accordion.isControllerExpanded (_s : Accordion) (c : Elem) : Bool :=
  decide (getAttr c.attrs "aria-expanded" = some "true")

/-- `isControllerDisabled`: `controller.getAttribute("aria-disabled") === "true"`. -/
def Accordion.isControllerDisabled (_s : Accordion) (c : Elem) : Bool :=
  decide (getAttr c.attrs "aria-disabled" = some "true")

/-- `allowManyContainers`: `this.root.hasAttribute("data-accordion-many-containers")`. -/
def Accordion.allowManyContainers (s : Accordion) : Bool :=
  hasAttr s.root "data-accordion-many-containers"

/-- `willToggle`: `manyContainers ? manyContainers : this.root.hasAttribute("data-accordion-toggle")`. -/
def Accordion.willToggle (s : Accordion) : Bool :=
  let manyContainers := s.allowManyContainers
  if manyContainers then manyContainers
  else hasAttr s.root "data-accordion-toggle"

/-- Index of the container `getContainerByController` returns:
`this.containers.find(k => k.id === controller.getAttribute("aria-controls"))`
returns the element at this index of `containers`. -/
def Accordion.findContainerIdx (s : Accordion) (c : Elem) : Option Nat :=
  idxOfMatch (getAttr c.attrs "aria-controls") (s.containers.map Elem.id)

/-- `getContainerByController` itself (the element the index points at). -/
def Accordion.getContainerByController (s : Accordion) (c : Elem) : Option Elem :=
  (s.findContainerIdx c).bind (fun j => s.containers[j]?)

/-- `isController`: some container's `id` equals the controller's
`aria-controls` value (on failure the source also logs a console error,
which has no state effect). -/
def Accordion.isController (s : Accordion) (c : Elem) : Bool :=
  refMatchesAny (s.containers.map Elem.id) (getAttr c.attrs "aria-controls")

/-- `isContainer`: some controller's `id` equals the container's
`aria-labelledby` value (on failure the source also logs a console error). -/
def Accordion.isContainer (s : Accordion) (k : Elem) : Bool :=
  refMatchesAny (s.controllers.map Elem.id) (getAttr k.attrs "aria-labelledby")

/-- Attribute `n` of the controller at index `i` (`none` when out of range). -/
def Accordion.ctrlAttr (s : Accordion) (i : Nat) (n : String) : Option String :=
  match s.controllers[i]? with
  | some c => getAttr c.attrs n
  | none => none

/-- Attribute `n` of the container at index `j`. -/
def Accordion.contAttr (s : Accordion) (j : Nat) (n : String) : Option String :=
  match s.containers[j]? with
  | some k => getAttr k.attrs n
  | none => none

/-- `id` of the controller at index `i`. -/
def Accordion.ctrlId (s : Accordion) (i : Nat) : Option String :=
  (s.controllers[i]?).map Elem.id

/-- `id` of the container at index `j`. -/
def Accordion.contId (s : Accordion) (j : Nat) : Option String :=
  (s.containers[j]?).map Elem.id

/-- Is the controller at index `i` expanded (`aria-expanded === "true"`)? -/
def Accordion.expandedAt (s : Accordion) (i : Nat) : Bool :=
  match s.controllers[i]? with
  | some c => s.isControllerExpanded c
  | none => false

/-- Does the container at index `j` carry the `hidden` attribute? -/
def Accordion.contHidden (s : Accordion) (j : Nat) : Bool :=
  match s.containers[j]? with
  | some k => hasAttr k.attrs "hidden"
  | none => false

/-- The guard chain shared by `activateContainerByController` and
`deactivateContainerByController`: the acted-on controller exists,
`isController` passes, the container lookup succeeds and `isContainer`
passes on the found container. Exactly when this holds do those methods
mutate anything. -/
def Accordion.canMutateB (s : Accordion) (i : Nat) : Bool :=
  match s.controllers[i]? with
  | none => false
  | some c =>
    if s.isController c then
      match s.findContainerIdx c with
      | none => false
      | some j =>
        match s.containers[j]? with
        | none => false
        | some k => s.isContainer k
    else false

/-- Common body of `activateContainerByController` /
`deactivateContainerByController`: validate both directions, then rewrite
the controller's attributes with `fc` and the found container's attributes
with `fk`; on any validation failure nothing is mutated (the source logs a
console error and returns). -/
def Accordion.applyPair (s : Accordion) (i : Nat) (fc fk : AttrMap → AttrMap) : Accordion :=
  match s.controllers[i]? with
  | none => s
  | some c =>
    if s.isController c then
      match s.findContainerIdx c with
      | none => s
      | some j =>
        match s.containers[j]? with
        | none => s
        | some k =>
          if s.isContainer k then
            { s with
              controllers := s.controllers.set i { c with attrs := fc c.attrs },
              containers := s.containers.set j { k with attrs := fk k.attrs } }
          else s
    else s

/-- Controller-attribute effect of activation: set `aria-expanded="true"`,
and when `willToggle` is false also set `aria-disabled="true"`. -/
def actCtrlAttrs (wt : Bool) (a : AttrMap) : AttrMap :=
  let a1 := setAttr a "aria-expanded" "true"
  if wt then a1 else setAttr a1 "aria-disabled" "true"

/-- Controller-attribute effect of deactivation: set `aria-expanded="false"`,
and when `willToggle` is false also remove `aria-disabled`. -/
def deactCtrlAttrs (wt : Bool) (a : AttrMap) : AttrMap :=
  let a1 := setAttr a "aria-expanded" "false"
  if wt then a1 else removeAttr a1 "aria-disabled"

/-- `activateContainerByController`: validate, then set
`aria-expanded="true"` on the controller, remove `hidden` from the
container, and set `aria-disabled="true"` when `willToggle()` is false
(`willToggle` reads only the root, which none of these writes touch, so it
may be read before the writes). -/
def Accordion.activateContainerByController (s : Accordion) (i : Nat) : Accordion :=
  s.applyPair i (actCtrlAttrs s.willToggle) (fun a => removeAttr a "hidden")

/-- `deactivateContainerByController`: validate, then set
`aria-expanded="false"` on the controller, set `hidden` (empty value, as
`setAttribute("hidden", "")` does) on the container, and remove
`aria-disabled` when `willToggle()` is false. -/
def Accordion.deactivateContainerByController (s : Accordion) (i : Nat) : Accordion :=
  s.applyPair i (deactCtrlAttrs s.willToggle) (fun a => setAttr a "hidden" "")

/-- Indices of `getActiveControllers()` minus the acted-on controller:
`this.getActiveControllers().filter(ac => ac !== controller)`. Reference
inequality `!==` is index inequality in this embedding. -/
def Accordion.activeIdxsExcept (s : Accordion) (i : Nat) : List Nat :=
  (List.range s.controllers.length).filter
    (fun j => !(j == i) && s.expandedAt j)

/-- Sequential `forEach` deactivation over a precomputed index list. -/
def Accordion.deactFold (s : Accordion) (xs : List Nat) : Accordion :=
  xs.foldl (fun t x => t.deactivateContainerByController x) s

/-- `updateContainerByController` (the toggle operation): when
`data-accordion-many-containers` is absent, first deactivate every other
currently-expanded controller; then activate the clicked controller when it
is collapsed, deactivate it when it is expanded and `willToggle()` holds,
and otherwise leave it alone. -/
def Accordion.updateContainerByController (s : Accordion) (i : Nat) : Accordion :=
  let s1 := if s.allowManyContainers then s else s.deactFold (s.activeIdxsExcept i)
  if !(s1.expandedAt i) then s1.activateContainerByController i
  else if s1.willToggle && s1.expandedAt i then s1.deactivateContainerByController i
  else s1

/-- `defaultContainersByControllers`: filter (against the constructed state)
the controllers whose `aria-expanded` is absent or `"false"`, then
deactivate each in order. -/
def Accordion.defaultContainersByControllers (s : Accordion) : Accordion :=
  s.deactFold
    ((List.range s.controllers.length).filter
      (fun i =>
        match s.controllers[i]? with
        | some c =>
          !(hasAttr c.attrs "aria-expanded") ||
            (getAttr c.attrs "aria-expanded" == some "false")
        | none => false))

/-- Construction once a non-null root was obtained: snapshot the two
descendant collections (`enumerateElements` of the `querySelectorAll`
results) and run initialization. `processControllerEvents` only registers
event listeners, which is stateless here, so initialization reduces to
`defaultContainersByControllers`. -/
def constructSome (r : RootElem) : Accordion :=
  Accordion.defaultContainersByControllers
    { root := r.attrs, controllers := r.buttons, containers := r.sections }

/-- The constructor. `root?` is the optional argument; `docQuery` is what
`document.querySelector(".accordion")` yields. `this.root = root ?? docQuery`;
when both are null the very next line `this.root.querySelectorAll(...)`
dereferences null and the constructor throws a TypeError, modelled as
`Except.error`. -/
def construct (root? : Option RootElem) (docQuery : Option RootElem) :
    Except String Accordion :=
  match (match root? with | some r => some r | none => docQuery) with
  | some r => Except.ok (constructSome r)
  | none => Except.error "TypeError: this.root is null"

/-- Run a sequence of toggle operations (clicks), left to right. -/
def Accordion.runToggles (s : Accordion) (ts : List Nat) : Accordion :=
  ts.foldl (fun t i => t.updateContainerByController i) s

/-- The spec's pairing invariant (§3) for the controller at `i` and the
container at `j`, strengthened with the fact that the code's container
lookup for that controller lands on index `j` (so `getContainerByController`
returns that very container): `aria-controls` of the controller equals the
container's id, `aria-labelledby` of the container equals the controller's
id, and `j` is the first container index whose id matches. -/
def Accordion.validPairB (s : Accordion) (i j : Nat) : Bool :=
  match s.controllers[i]?, s.containers[j]? with
  | some c, some k =>
    decide (getAttr c.attrs "aria-controls" = some k.id) &&
      decide (getAttr k.attrs "aria-labelledby" = some c.id) &&
      (s.findContainerIdx c == some j)
  | _, _ => false

/-- No controller other than the one at `i` references (via `aria-controls`)
the id of the container at `j`. -/
def Accordion.noOtherRefB (s : Accordion) (i j : Nat) : Bool :=
  (List.range s.controllers.length).all
    (fun p =>
      (p == i) ||
        match s.controllers[p]?, s.containers[j]? with
        | some c, some k => !(getAttr c.attrs "aria-controls" == some k.id)
        | _, _ => true)

/-- The per-pair visibility equivalence: the container at `j` lacks `hidden`
iff the controller at `i` has `aria-expanded="true"`. -/
def Accordion.pairEquivB (s : Accordion) (i j : Nat) : Bool :=
  (match s.containers[j]? with
   | some k => !(hasAttr k.attrs "hidden")
   | none => false) == s.expandedAt i

/-- JS `Array.prototype.indexOf` under reference equality: index of the
first occurrence, `-1` when absent. -/
def jsIndexOf : List Elem → Elem → Int
  | [], _ => -1
  | x :: rest, c =>
    if x = c then 0
    else if jsIndexOf rest c < 0 then -1 else jsIndexOf rest c + 1

/-- `getFirstController`: `this.controllers[0]` (undefined on an empty
sequence becomes `none`). -/
def Accordion.getFirstController (s : Accordion) : Option Elem :=
  s.controllers[0]?

/-- `getLastController`: `this.controllers[this.controllers.length - 1]`. -/
def Accordion.getLastController (s : Accordion) : Option Elem :=
  s.controllers[s.controllers.length - 1]?

/-- `getNextController`: `index = indexOf(controller) + 1;` then
`index <= length - 1 ? controllers[index] : getFirstController()`. -/
def Accordion.getNextController (s : Accordion) (c : Elem) : Option Elem :=
  if jsIndexOf s.controllers c + 1 ≤ (s.controllers.length : Int) - 1 then
    s.controllers[(jsIndexOf s.controllers c + 1).toNat]?
  else s.getFirstController

/-- `getPrevController`: `index = indexOf(controller) - 1;` then
`index >= 0 ? controllers[index] : getLastController()`. -/
def Accordion.getPrevController (s : Accordion) (c : Elem) : Option Elem :=
  if 0 ≤ jsIndexOf s.controllers c - 1 then
    s.controllers[(jsIndexOf s.controllers c - 1).toNat]?
  else s.getLastController

/-- The two fields of a `KeyboardEvent` the handler reads. -/
structure KeyEvent where
  key : String
  ctrlKey : Bool
deriving DecidableEq, Repr

/-- ASCII lowercasing of one character, what `toLowerCase()` does on the
ASCII key names the handler compares against. -/
def asciiLower (c : Char) : Char :=
  if 65 ≤ c.toNat ∧ c.toNat ≤ 90 then Char.ofNat (c.toNat + 32) else c

/-- `event.key.toLowerCase()` as a character list. -/
def lowerChars (s : String) : List Char :=
  s.toList.map asciiLower

/-- Is `pat` a prefix of `hay`? -/
def startsWithChars : List Char → List Char → Bool
  | [], _ => true
  | _ :: _, [] => false
  | p :: ps, h :: hs => p == h && startsWithChars ps hs

/-- Does `hay` contain `pat` as a contiguous substring? This is
`key.match(/pat/i)` truthiness for a literal all-lowercase pattern. -/
def containsChars (pat : List Char) : List Char → Bool
  | [] => pat.isEmpty
  | h :: hs => startsWithChars pat (h :: hs) || containsChars pat hs

/-- `event.key.match(/pat/i)` truthiness: case-insensitive substring test. -/
def keyMatches (key pat : String) : Bool :=
  containsChars pat.toList (lowerChars key)

/-- `isKeyup`: Ctrl+PageUp, ArrowUp or Up (on the lowercased key). -/
def isKeyup (e : KeyEvent) : Bool :=
  let key := lowerChars e.key
  (e.ctrlKey && key == "pageup".toList) ||
    key == "arrowup".toList || key == "up".toList

/-- `isKeydown`: Ctrl+PageDown, ArrowDown or Down. -/
def isKeydown (e : KeyEvent) : Bool :=
  let key := lowerChars e.key
  (e.ctrlKey && key == "pagedown".toList) ||
    key == "arrowdown".toList || key == "down".toList

/-- The `.focus()` calls the `keydown` handler returned by
`navigateControllerEvent` performs for controller `c`, in order: previous
on a key-up match, next on a key-down match, first on `/home/i`, last on
`/end/i` (each entry is the possibly-undefined lookup result). -/
def Accordion.focusTargets (s : Accordion) (c : Elem) (e : KeyEvent) :
    List (Option Elem) :=
  (if isKeyup e then [s.getPrevController c] else []) ++
    (if isKeydown e then [s.getNextController c] else []) ++
    (if keyMatches e.key "home" then [s.getFirstController] else []) ++
    (if keyMatches e.key "end" then [s.getLastController] else [])

/-- The toggle machinery never rewrites ids, reference attributes or the
root; two states agreeing on those agree on every validation outcome. -/
def SameSkel (s t : Accordion) : Prop :=
  t.root = s.root ∧
    t.controllers.map Elem.id = s.controllers.map Elem.id ∧
    t.controllers.map (fun c => getAttr c.attrs "aria-controls") =
      s.controllers.map (fun c => getAttr c.attrs "aria-controls") ∧
    t.containers.map Elem.id = s.containers.map Elem.id ∧
    t.containers.map (fun k => getAttr k.attrs "aria-labelledby") =
      s.containers.map (fun k => getAttr k.attrs "aria-labelledby")

/-- Index of the container the controller at `p` resolves to (if any). -/
def Accordion.pairIdxOf (s : Accordion) (p : Nat) : Option Nat :=
  match s.controllers[p]? with
  | some c => s.findContainerIdx c
  | none => none

/-- C1 counterexample widget: valid pair (c1,k1) expanded, valid pair
(c2,k2) collapsed, plus a third expanded controller whose `aria-controls`
names no container. -/
def cexC1 : Accordion :=
  { root := []
  , controllers :=
      [⟨"c1", [("aria-controls", "k1"), ("aria-expanded", "true")]⟩,
       ⟨"c2", [("aria-controls", "k2"), ("aria-expanded", "false")]⟩,
       ⟨"c3", [("aria-controls", "nope"), ("aria-expanded", "true")]⟩]
  , containers :=
      [⟨"k1", [("aria-labelledby", "c1")]⟩,
       ⟨"k2", [("aria-labelledby", "c2"), ("hidden", "")]⟩] }

/-- C1 witness widget: two valid pairs, first expanded, second collapsed. -/
def witC1 : Accordion :=
  { root := []
  , controllers :=
      [⟨"c1", [("aria-controls", "k1"), ("aria-expanded", "true")]⟩,
       ⟨"c2", [("aria-controls", "k2"), ("aria-expanded", "false")]⟩]
  , containers :=
      [⟨"k1", [("aria-labelledby", "c1")]⟩,
       ⟨"k2", [("aria-labelledby", "c2"), ("hidden", "")]⟩] }

/-- C2 counterexample widget: a valid expanded pair plus a controller whose
`aria-controls` names no container id. -/
def cexC2 : Accordion :=
  { root := []
  , controllers :=
      [⟨"c1", [("aria-controls", "k1"), ("aria-expanded", "true")]⟩,
       ⟨"c2", [("aria-controls", "nope")]⟩]
  , containers := [⟨"k1", [("aria-labelledby", "c1")]⟩] }

/-- C2 witness widget: many-containers set, one invalid controller. -/
def witC2 : Accordion :=
  { root := [("data-accordion-many-containers", "")]
  , controllers :=
      [⟨"c1", [("aria-controls", "k1"), ("aria-expanded", "true")]⟩,
       ⟨"c2", [("aria-controls", "nope")]⟩]
  , containers := [⟨"k1", [("aria-labelledby", "c1")]⟩] }

/-- C5 widget: toggle-allowed root, one valid pair expanded with a preset
`aria-disabled`. -/
def cexC5 : Accordion :=
  { root := [("data-accordion-toggle", "")]
  , controllers :=
      [⟨"c1", [("aria-controls", "k1"), ("aria-expanded", "true"),
               ("aria-disabled", "true")]⟩]
  , containers := [⟨"k1", [("aria-labelledby", "c1")]⟩] }

/-- C6 counterexample widget: many-containers root, two collapsed valid
pairs, the first controller carrying a preset `aria-disabled`. -/
def cexC6 : Accordion :=
  { root := [("data-accordion-many-containers", "")]
  , controllers :=
      [⟨"c1", [("aria-controls", "k1"), ("aria-expanded", "false"),
               ("aria-disabled", "true")]⟩,
       ⟨"c2", [("aria-controls", "k2"), ("aria-expanded", "false")]⟩]
  , containers :=
      [⟨"k1", [("aria-labelledby", "c1"), ("hidden", "")]⟩,
       ⟨"k2", [("aria-labelledby", "c2"), ("hidden", "")]⟩] }

/-- C6 witness widget: as the counterexample but with no preset
`aria-disabled` anywhere. -/
def witC6 : Accordion :=
  { root := [("data-accordion-many-containers", "")]
  , controllers :=
      [⟨"c1", [("aria-controls", "k1"), ("aria-expanded", "false")]⟩,
       ⟨"c2", [("aria-controls", "k2"), ("aria-expanded", "false")]⟩]
  , containers :=
      [⟨"k1", [("aria-labelledby", "c1"), ("hidden", "")]⟩,
       ⟨"k2", [("aria-labelledby", "c2"), ("hidden", "")]⟩] }

/-- C7 counterexample widget: toggle-allowed, valid pair collapsed via an
ABSENT `aria-expanded` attribute. -/
def cexC7 : Accordion :=
  { root := [("data-accordion-toggle", "")]
  , controllers := [⟨"c1", [("aria-controls", "k1")]⟩]
  , containers := [⟨"k1", [("aria-labelledby", "c1"), ("hidden", "")]⟩] }

/-- C7 witness widget: canonical collapsed rest state. -/
def witC7 : Accordion :=
  { root := [("data-accordion-toggle", "")]
  , controllers :=
      [⟨"c1", [("aria-controls", "k1"), ("aria-expanded", "false"), ("class", "x")]⟩]
  , containers := [⟨"k1", [("aria-labelledby", "c1"), ("hidden", "")]⟩] }

/-- The widget state right after the constructor's snapshots, before
initialization runs. -/
def preAccordion (r : RootElem) : Accordion :=
  { root := r.attrs, controllers := r.buttons, containers := r.sections }

/-- C8 counterexample root: the only controller has `aria-expanded="yes"`,
which is neither absent nor `"false"` nor `"true"`. -/
def cexC8r : RootElem :=
  { attrs := []
  , buttons := [⟨"c1", [("aria-controls", "k1"), ("aria-expanded", "yes")]⟩]
  , sections := [⟨"k1", [("aria-labelledby", "c1")]⟩] }

/-- C8 witness root: a valid pair whose controller lacks `aria-expanded`. -/
def witC8r : RootElem :=
  { attrs := []
  , buttons := [⟨"c1", [("aria-controls", "k1")]⟩]
  , sections := [⟨"k1", [("aria-labelledby", "c1")]⟩] }

/-- C9 witness widget: three distinct controllers. -/
def witC9 : Accordion :=
  { root := []
  , controllers :=
      [⟨"c1", [("aria-controls", "k1")]⟩, ⟨"c2", [("aria-controls", "k2")]⟩,
       ⟨"c3", [("aria-controls", "k3")]⟩]
  , containers := [] }

/-- C10 witness widget. -/
def witC10 : Accordion :=
  { root := [("data-accordion-toggle", "")]
  , controllers :=
      [⟨"c1", [("aria-controls", "k1"), ("aria-expanded", "false"), ("class", "x")]⟩]
  , containers := [⟨"k1", [("aria-labelledby", "c1"), ("hidden", ""), ("class", "y")]⟩] }

/-- C4 counterexample root: the valid pair is marked up expanded
(`aria-expanded="true"`) while its container carries `hidden`. -/
def cexC4r : RootElem :=
  { attrs := []
  , buttons := [⟨"c1", [("aria-controls", "k1"), ("aria-expanded", "true")]⟩]
  , sections := [⟨"k1", [("aria-labelledby", "c1"), ("hidden", "")]⟩] }

/-- C4 witness widget: two valid pairs in a consistent state. -/
def witC4 : Accordion :=
  { root := []
  , controllers :=
      [⟨"c1", [("aria-controls", "k1"), ("aria-expanded", "true")]⟩,
       ⟨"c2", [("aria-controls", "k2"), ("aria-expanded", "false")]⟩]
  , containers :=
      [⟨"k1", [("aria-labelledby", "c1")]⟩,
       ⟨"k2", [("aria-labelledby", "c2"), ("hidden", "")]⟩] }

theorem getAttr_setAttr_self (a : AttrMap) (n v : String) :
    getAttr (setAttr a n v) n = some v := by
  induction a with
  | nil => simp [setAttr, getAttr]
  | cons hd tl ih =>
    obtain ⟨m, w⟩ := hd
    by_cases h : m = n
    · simp [setAttr, h, getAttr]
    · simp [setAttr, h, getAttr, ih]

theorem getAttr_setAttr_ne (a : AttrMap) (n v m : String) (h : m ≠ n) :
    getAttr (setAttr a n v) m = getAttr a m := by
  induction a with
  | nil => simp [setAttr, getAttr, Ne.symm h]
  | cons hd tl ih =>
    obtain ⟨p, w⟩ := hd
    by_cases hp : p = n
    · subst hp
      simp [setAttr, getAttr, Ne.symm h]
    · simp [setAttr, hp, getAttr, ih]

theorem getAttr_removeAttr_self (a : AttrMap) (n : String) :
    getAttr (removeAttr a n) n = none := by
  induction a with
  | nil => simp [removeAttr, getAttr]
  | cons hd tl ih =>
    obtain ⟨m, w⟩ := hd
    by_cases h : m = n
    · simp [removeAttr, h, ih]
    · simp [removeAttr, h, getAttr, ih]

theorem getAttr_removeAttr_ne (a : AttrMap) (n m : String) (h : m ≠ n) :
    getAttr (removeAttr a n) m = getAttr a m := by
  induction a with
  | nil => simp [removeAttr]
  | cons hd tl ih =>
    obtain ⟨p, w⟩ := hd
    by_cases hp : p = n
    · subst hp
      have : ¬ p = m := fun hh => h hh.symm
      simp [removeAttr, getAttr, this, ih]
    · simp [removeAttr, hp, getAttr, ih]

theorem idxOfMatch_found (ref : Option String) :
    ∀ (ids : List String) (j : Nat), idxOfMatch ref ids = some j →
      ∃ d, ids[j]? = some d ∧ ref = some d := by
  intro ids
  induction ids with
  | nil => intro j h; simp [idxOfMatch] at h
  | cons d rest ih =>
    intro j h
    by_cases hd : ref = some d
    · simp only [idxOfMatch, if_pos hd] at h
      injection h with h0
      subst h0
      exact ⟨d, by simp, hd⟩
    · simp only [idxOfMatch, if_neg hd] at h
      cases hrec : idxOfMatch ref rest with
      | none => rw [hrec] at h; simp at h
      | some j' =>
        rw [hrec] at h
        simp only [Option.map_some'] at h
        injection h with h0
        subst h0
        obtain ⟨e, he, hre⟩ := ih j' hrec
        exact ⟨e, by simpa using he, hre⟩

theorem refMatchesAny_eq_isSome (ref : Option String) (ids : List String) :
    refMatchesAny ids ref = (idxOfMatch ref ids).isSome := by
  induction ids with
  | nil => simp [refMatchesAny, idxOfMatch]
  | cons d rest ih =>
    by_cases hd : ref = some d
    · simp [refMatchesAny, idxOfMatch, hd]
    · simp only [refMatchesAny, idxOfMatch, if_neg hd, List.any_cons] at ih ⊢
      rw [ih]
      cases hrec : idxOfMatch ref rest with
      | none => simp [hd]
      | some j' => simp [hd]

theorem refMatchesAny_of_mem {ids : List String} {d : String} (h : d ∈ ids) :
    refMatchesAny ids (some d) = true :=
  List.any_eq_true.mpr ⟨d, h, by simp⟩

theorem set_getElem?_some {α} {l : List α} {i : Nat} {c : α} (h : l[i]? = some c) (a : α) :
    (l.set i a)[i]? = some a := by
  rw [List.getElem?_set_self']
  rw [h]
  rfl

theorem validPair_parts {s : Accordion} {i j : Nat} (h : s.validPairB i j = true) :
    ∃ c k, s.controllers[i]? = some c ∧ s.containers[j]? = some k ∧
      getAttr c.attrs "aria-controls" = some k.id ∧
      getAttr k.attrs "aria-labelledby" = some c.id ∧
      s.findContainerIdx c = some j := by
  unfold Accordion.validPairB at h
  cases hc : s.controllers[i]? with
  | none => rw [hc] at h; simp at h
  | some c =>
    cases hk : s.containers[j]? with
    | none => rw [hc, hk] at h; simp at h
    | some k =>
      rw [hc, hk] at h
      simp only [Bool.and_eq_true, decide_eq_true_eq, beq_iff_eq] at h
      exact ⟨c, k, rfl, rfl, h.1.1, h.1.2, h.2⟩

theorem canMutateB_of_validPair {s : Accordion} {i j : Nat} (h : s.validPairB i j = true) :
    s.canMutateB i = true := by
  obtain ⟨c, k, hc, hk, href, hlbl, hidx⟩ := validPair_parts h
  have hkmem : k ∈ s.containers := List.getElem?_mem hk
  have hic : s.isController c = true := by
    unfold Accordion.isController
    rw [href]
    exact refMatchesAny_of_mem (List.mem_map_of_mem Elem.id hkmem)
  have hcmem : c ∈ s.controllers := List.getElem?_mem hc
  have hik : s.isContainer k = true := by
    unfold Accordion.isContainer
    rw [hlbl]
    exact refMatchesAny_of_mem (List.mem_map_of_mem Elem.id hcmem)
  unfold Accordion.canMutateB
  simp only [hc, hic, if_true, hidx, hk]
  exact hik

theorem applyPair_no {s : Accordion} {i : Nat} (fc fk : AttrMap → AttrMap)
    (h : s.canMutateB i = false) : s.applyPair i fc fk = s := by
  unfold Accordion.canMutateB at h
  unfold Accordion.applyPair
  cases hc : s.controllers[i]? with
  | none => simp
  | some c =>
    simp only [hc] at h ⊢
    by_cases hic : s.isController c = true
    · simp only [hic, if_true] at h ⊢
      cases hj : s.findContainerIdx c with
      | none => simp [hj]
      | some j =>
        simp only [hj] at h ⊢
        cases hk : s.containers[j]? with
        | none => simp
        | some k =>
          simp only [hk] at h ⊢
          simp [h]
    · simp [hic]

theorem applyPair_yes {s : Accordion} {i : Nat} (fc fk : AttrMap → AttrMap)
    (h : s.canMutateB i = true) :
    ∃ c j k, s.controllers[i]? = some c ∧ s.findContainerIdx c = some j ∧
      s.containers[j]? = some k ∧ s.isController c = true ∧ s.isContainer k = true ∧
      s.applyPair i fc fk =
        { s with
          controllers := s.controllers.set i { c with attrs := fc c.attrs },
          containers := s.containers.set j { k with attrs := fk k.attrs } } := by
  unfold Accordion.canMutateB at h
  cases hc : s.controllers[i]? with
  | none => rw [hc] at h; simp at h
  | some c =>
    simp only [hc] at h
    by_cases hic : s.isController c = true
    · simp only [hic, if_true] at h
      cases hj : s.findContainerIdx c with
      | none => rw [hj] at h; simp at h
      | some j =>
        simp only [hj] at h
        cases hk : s.containers[j]? with
        | none => rw [hk] at h; simp at h
        | some k =>
          simp only [hk] at h
          refine ⟨c, j, k, rfl, hj, hk, hic, h, ?_⟩
          unfold Accordion.applyPair
          simp only [hc, hic, if_true, hj, hk, h]
    · simp [hic] at h

theorem sameSkel_rfl (s : Accordion) : SameSkel s s :=
  ⟨rfl, rfl, rfl, rfl, rfl⟩

theorem sameSkel_trans {s t u : Accordion} (h1 : SameSkel s t) (h2 : SameSkel t u) :
    SameSkel s u :=
  ⟨h2.1.trans h1.1, h2.2.1.trans h1.2.1, h2.2.2.1.trans h1.2.2.1,
    h2.2.2.2.1.trans h1.2.2.2.1, h2.2.2.2.2.trans h1.2.2.2.2⟩

theorem map_proj_getElem? {α β : Type} (f : α → β) {l₁ l₂ : List α}
    (h : l₁.map f = l₂.map f) (n : Nat) : (l₁[n]?).map f = (l₂[n]?).map f := by
  rw [← List.getElem?_map, ← List.getElem?_map, h]

theorem sameSkel_lenC {s t : Accordion} (h : SameSkel s t) :
    t.controllers.length = s.controllers.length := by
  have := congrArg List.length h.2.1
  simpa using this

theorem sameSkel_lenK {s t : Accordion} (h : SameSkel s t) :
    t.containers.length = s.containers.length := by
  have := congrArg List.length h.2.2.2.1
  simpa using this

theorem sameSkel_isController {s t : Accordion} (h : SameSkel s t) (c : Elem) :
    t.isController c = s.isController c := by
  unfold Accordion.isController
  rw [h.2.2.2.1]

theorem sameSkel_isContainer {s t : Accordion} (h : SameSkel s t) (k : Elem) :
    t.isContainer k = s.isContainer k := by
  unfold Accordion.isContainer
  rw [h.2.1]

theorem sameSkel_findContainerIdx {s t : Accordion} (h : SameSkel s t) (c : Elem) :
    t.findContainerIdx c = s.findContainerIdx c := by
  unfold Accordion.findContainerIdx
  rw [h.2.2.2.1]

theorem sameSkel_willToggle {s t : Accordion} (h : SameSkel s t) :
    t.willToggle = s.willToggle := by
  unfold Accordion.willToggle Accordion.allowManyContainers
  rw [h.1]

theorem sameSkel_allowMany {s t : Accordion} (h : SameSkel s t) :
    t.allowManyContainers = s.allowManyContainers := by
  unfold Accordion.allowManyContainers
  rw [h.1]

theorem sameSkel_ctrl_pointwise {s t : Accordion} (h : SameSkel s t) (i : Nat) :
    (t.controllers[i]? = none ∧ s.controllers[i]? = none) ∨
      ∃ c' c, t.controllers[i]? = some c' ∧ s.controllers[i]? = some c ∧
        c'.id = c.id ∧
        getAttr c'.attrs "aria-controls" = getAttr c.attrs "aria-controls" := by
  have hid := map_proj_getElem? Elem.id h.2.1 i
  have href := map_proj_getElem? (fun (c : Elem) => getAttr c.attrs "aria-controls") h.2.2.1 i
  cases hs : s.controllers[i]? with
  | none =>
    left
    refine ⟨?_, rfl⟩
    rw [hs] at hid
    simp only [Option.map_none'] at hid
    exact Option.map_eq_none'.mp hid
  | some c =>
    right
    rw [hs] at hid href
    simp only [Option.map_some'] at hid href
    obtain ⟨c', hc', hcid⟩ := Option.map_eq_some'.mp hid
    refine ⟨c', c, hc', rfl, hcid, ?_⟩
    rw [hc'] at href
    simpa using href

theorem sameSkel_cont_pointwise {s t : Accordion} (h : SameSkel s t) (j : Nat) :
    (t.containers[j]? = none ∧ s.containers[j]? = none) ∨
      ∃ k' k, t.containers[j]? = some k' ∧ s.containers[j]? = some k ∧
        k'.id = k.id ∧
        getAttr k'.attrs "aria-labelledby" = getAttr k.attrs "aria-labelledby" := by
  have hid := map_proj_getElem? Elem.id h.2.2.2.1 j
  have href := map_proj_getElem? (fun (k : Elem) => getAttr k.attrs "aria-labelledby") h.2.2.2.2 j
  cases hs : s.containers[j]? with
  | none =>
    left
    refine ⟨?_, rfl⟩
    rw [hs] at hid
    simp only [Option.map_none'] at hid
    exact Option.map_eq_none'.mp hid
  | some k =>
    right
    rw [hs] at hid href
    simp only [Option.map_some'] at hid href
    obtain ⟨k', hk', hkid⟩ := Option.map_eq_some'.mp hid
    refine ⟨k', k, hk', rfl, hkid, ?_⟩
    rw [hk'] at href
    simpa using href

theorem sameSkel_canMutateB {s t : Accordion} (h : SameSkel s t) (i : Nat) :
    t.canMutateB i = s.canMutateB i := by
  unfold Accordion.canMutateB
  rcases sameSkel_ctrl_pointwise h i with ⟨ht, hs⟩ | ⟨c', c, ht, hs, hcid, href⟩
  · simp only [ht, hs]
  · simp only [ht, hs]
    have h1 : t.isController c' = s.isController c := by
      rw [sameSkel_isController h c']
      unfold Accordion.isController
      rw [href]
    have h2 : t.findContainerIdx c' = s.findContainerIdx c := by
      rw [sameSkel_findContainerIdx h c']
      unfold Accordion.findContainerIdx
      rw [href]
    rw [h1, h2]
    by_cases hic : s.isController c = true
    · simp only [hic, if_true]
      cases hj : s.findContainerIdx c with
      | none => rfl
      | some j =>
        rcases sameSkel_cont_pointwise h j with ⟨htk, hsk⟩ | ⟨k', k, htk, hsk, hkid, hlbl⟩
        · simp only [htk, hsk]
        · simp only [htk, hsk]
          rw [sameSkel_isContainer h k']
          unfold Accordion.isContainer
          rw [hlbl]
    · simp [hic]

theorem sameSkel_validPairB {s t : Accordion} (h : SameSkel s t) (i j : Nat) :
    t.validPairB i j = s.validPairB i j := by
  unfold Accordion.validPairB
  have h2 : ∀ c' c : Elem,
      getAttr c'.attrs "aria-controls" = getAttr c.attrs "aria-controls" →
      t.findContainerIdx c' = s.findContainerIdx c := by
    intro c' c href
    rw [sameSkel_findContainerIdx h c']
    unfold Accordion.findContainerIdx
    rw [href]
  rcases sameSkel_ctrl_pointwise h i with ⟨ht, hs⟩ | ⟨c', c, ht, hs, hcid, href⟩
  · rcases sameSkel_cont_pointwise h j with ⟨htk, hsk⟩ | ⟨k', k, htk, hsk, hkid, hlbl⟩
    · simp only [ht, hs, htk, hsk]
    · simp only [ht, hs, htk, hsk]
  · rcases sameSkel_cont_pointwise h j with ⟨htk, hsk⟩ | ⟨k', k, htk, hsk, hkid, hlbl⟩
    · simp only [ht, hs, htk, hsk]
    · simp only [ht, hs, htk, hsk]
      rw [href, hkid, hlbl, hcid, h2 c' c href]

theorem sameSkel_noOtherRefB {s t : Accordion} (h : SameSkel s t) (i j : Nat) :
    t.noOtherRefB i j = s.noOtherRefB i j := by
  unfold Accordion.noOtherRefB
  rw [sameSkel_lenC h]
  congr 1
  funext p
  rcases sameSkel_ctrl_pointwise h p with ⟨ht, hs⟩ | ⟨c', c, ht, hs, hcid, href⟩
  · rcases sameSkel_cont_pointwise h j with ⟨htk, hsk⟩ | ⟨k', k, htk, hsk, hkid, hlbl⟩
    · simp only [ht, hs, htk, hsk]
    · simp only [ht, hs, htk, hsk]
  · rcases sameSkel_cont_pointwise h j with ⟨htk, hsk⟩ | ⟨k', k, htk, hsk, hkid, hlbl⟩
    · simp only [ht, hs, htk, hsk]
    · simp only [ht, hs, htk, hsk]
      rw [href, hkid]

theorem set_of_getElem? {α : Type} :
    ∀ (l : List α) (i : Nat) (a : α), l[i]? = some a → l.set i a = l := by
  intro l
  induction l with
  | nil => intro i a h; simp at h
  | cons x xs ih =>
    intro i a h
    cases i with
    | zero =>
      simp only [List.getElem?_cons_zero, Option.some.injEq] at h
      rw [List.set_cons_zero, h]
    | succ n =>
      simp only [List.getElem?_cons_succ] at h
      rw [List.set_cons_succ, ih n a h]

theorem map_set_same {α β : Type} (f : α → β) (l : List α) (i : Nat) (a b : α)
    (hb : l[i]? = some b) (hf : f a = f b) : (l.set i a).map f = l.map f := by
  rw [List.map_set]
  apply set_of_getElem?
  rw [List.getElem?_map, hb, Option.map_some', hf]

theorem applyPair_sameSkel {s : Accordion} {i : Nat} (fc fk : AttrMap → AttrMap)
    (hfc1 : ∀ a, getAttr (fc a) "aria-controls" = getAttr a "aria-controls")
    (hfk1 : ∀ a, getAttr (fk a) "aria-labelledby" = getAttr a "aria-labelledby") :
    SameSkel s (s.applyPair i fc fk) := by
  cases hcm : s.canMutateB i with
  | false => rw [applyPair_no fc fk hcm]; exact sameSkel_rfl s
  | true =>
    obtain ⟨c, j, k, hc, hj, hk, _, _, heq⟩ := applyPair_yes fc fk hcm
    rw [heq]
    refine ⟨rfl, ?_, ?_, ?_, ?_⟩
    · exact map_set_same Elem.id s.controllers i _ c hc rfl
    · exact map_set_same (fun c => getAttr c.attrs "aria-controls") s.controllers i
        { c with attrs := fc c.attrs } c hc (hfc1 c.attrs)
    · exact map_set_same Elem.id s.containers j _ k hk rfl
    · exact map_set_same (fun k => getAttr k.attrs "aria-labelledby") s.containers j
        { k with attrs := fk k.attrs } k hk (hfk1 k.attrs)

theorem deactCtrlAttrs_expanded (wt : Bool) (a : AttrMap) :
    getAttr (deactCtrlAttrs wt a) "aria-expanded" = some "false" := by
  cases wt with
  | true => simp [deactCtrlAttrs, getAttr_setAttr_self]
  | false =>
    simp only [deactCtrlAttrs, Bool.false_eq_true, if_false]
    rw [getAttr_removeAttr_ne _ _ _ (by decide), getAttr_setAttr_self]

theorem deactCtrlAttrs_frame (wt : Bool) (a : AttrMap) (n : String)
    (h1 : n ≠ "aria-expanded") (h2 : n ≠ "aria-disabled") :
    getAttr (deactCtrlAttrs wt a) n = getAttr a n := by
  cases wt with
  | true => simp [deactCtrlAttrs, getAttr_setAttr_ne _ _ _ _ h1]
  | false =>
    simp only [deactCtrlAttrs, Bool.false_eq_true, if_false]
    rw [getAttr_removeAttr_ne _ _ _ h2, getAttr_setAttr_ne _ _ _ _ h1]

theorem deactCtrlAttrs_disabled_wt (a : AttrMap) :
    getAttr (deactCtrlAttrs true a) "aria-disabled" = getAttr a "aria-disabled" := by
  simp [deactCtrlAttrs, getAttr_setAttr_ne _ _ _ _ (by decide : "aria-disabled" ≠ "aria-expanded")]

theorem actCtrlAttrs_expanded (wt : Bool) (a : AttrMap) :
    getAttr (actCtrlAttrs wt a) "aria-expanded" = some "true" := by
  cases wt with
  | true => simp [actCtrlAttrs, getAttr_setAttr_self]
  | false =>
    simp only [actCtrlAttrs, Bool.false_eq_true, if_false]
    rw [getAttr_setAttr_ne _ _ _ _ (by decide), getAttr_setAttr_self]

theorem actCtrlAttrs_frame (wt : Bool) (a : AttrMap) (n : String)
    (h1 : n ≠ "aria-expanded") (h2 : n ≠ "aria-disabled") :
    getAttr (actCtrlAttrs wt a) n = getAttr a n := by
  cases wt with
  | true => simp [actCtrlAttrs, getAttr_setAttr_ne _ _ _ _ h1]
  | false =>
    simp only [actCtrlAttrs, Bool.false_eq_true, if_false]
    rw [getAttr_setAttr_ne _ _ _ _ h2, getAttr_setAttr_ne _ _ _ _ h1]

theorem actCtrlAttrs_disabled_wt (a : AttrMap) :
    getAttr (actCtrlAttrs true a) "aria-disabled" = getAttr a "aria-disabled" := by
  simp [actCtrlAttrs, getAttr_setAttr_ne _ _ _ _ (by decide : "aria-disabled" ≠ "aria-expanded")]

theorem deact_sameSkel (s : Accordion) (i : Nat) :
    SameSkel s (s.deactivateContainerByController i) :=
  applyPair_sameSkel _ _
    (fun a => deactCtrlAttrs_frame _ a _ (by decide) (by decide))
    (fun a => getAttr_setAttr_ne a _ _ _ (by decide))

theorem act_sameSkel (s : Accordion) (i : Nat) :
    SameSkel s (s.activateContainerByController i) :=
  applyPair_sameSkel _ _
    (fun a => actCtrlAttrs_frame _ a _ (by decide) (by decide))
    (fun a => getAttr_removeAttr_ne a _ _ (by decide))

theorem applyPair_ctrl_other {s : Accordion} {i : Nat} (fc fk : AttrMap → AttrMap)
    (p : Nat) (hp : p ≠ i) :
    (s.applyPair i fc fk).controllers[p]? = s.controllers[p]? := by
  cases hcm : s.canMutateB i with
  | false => rw [applyPair_no fc fk hcm]
  | true =>
    obtain ⟨c, j, k, hc, hj, hk, _, _, heq⟩ := applyPair_yes fc fk hcm
    rw [heq]
    exact List.getElem?_set_ne (fun h => hp h.symm)

theorem applyPair_ctrl_self {s : Accordion} {i : Nat} (fc fk : AttrMap → AttrMap)
    {c : Elem} (hc : s.controllers[i]? = some c) (hcm : s.canMutateB i = true) :
    (s.applyPair i fc fk).controllers[i]? = some { c with attrs := fc c.attrs } := by
  obtain ⟨c', j, k, hc', hj, hk, _, _, heq⟩ := applyPair_yes fc fk hcm
  rw [hc] at hc'
  injection hc' with e
  subst e
  rw [heq]
  exact set_getElem?_some hc _

theorem applyPair_cont_self {s : Accordion} {i : Nat} (fc fk : AttrMap → AttrMap)
    {c : Elem} {j : Nat} (hc : s.controllers[i]? = some c)
    (hj : s.findContainerIdx c = some j) (hcm : s.canMutateB i = true) :
    ∃ k, s.containers[j]? = some k ∧
      (s.applyPair i fc fk).containers[j]? = some { k with attrs := fk k.attrs } := by
  obtain ⟨c', j', k, hc', hj', hk, _, _, heq⟩ := applyPair_yes fc fk hcm
  rw [hc] at hc'
  injection hc' with e
  subst e
  rw [hj] at hj'
  injection hj' with e
  subst e
  refine ⟨k, hk, ?_⟩
  rw [heq]
  exact set_getElem?_some hk _

theorem applyPair_cont_other {s : Accordion} {i : Nat} (fc fk : AttrMap → AttrMap)
    (q : Nat) (hq : ∀ c, s.controllers[i]? = some c → s.findContainerIdx c ≠ some q) :
    (s.applyPair i fc fk).containers[q]? = s.containers[q]? := by
  cases hcm : s.canMutateB i with
  | false => rw [applyPair_no fc fk hcm]
  | true =>
    obtain ⟨c, j, k, hc, hj, hk, _, _, heq⟩ := applyPair_yes fc fk hcm
    rw [heq]
    have : j ≠ q := fun h => hq c hc (h ▸ hj)
    exact List.getElem?_set_ne this

theorem expandedAt_eq (s : Accordion) (i : Nat) :
    s.expandedAt i = decide (s.ctrlAttr i "aria-expanded" = some "true") := by
  unfold Accordion.expandedAt Accordion.ctrlAttr Accordion.isControllerExpanded
  cases s.controllers[i]? <;> simp

theorem deact_eq (s : Accordion) (i : Nat) :
    s.deactivateContainerByController i =
      s.applyPair i (deactCtrlAttrs s.willToggle) (fun a => setAttr a "hidden" "") := rfl

theorem act_eq (s : Accordion) (i : Nat) :
    s.activateContainerByController i =
      s.applyPair i (actCtrlAttrs s.willToggle) (fun a => removeAttr a "hidden") := rfl

theorem deact_ctrlAttr_frame (s : Accordion) (i p : Nat) (n : String)
    (h1 : n ≠ "aria-expanded") (h2 : n ≠ "aria-disabled") :
    (s.deactivateContainerByController i).ctrlAttr p n = s.ctrlAttr p n := by
  rw [deact_eq]
  unfold Accordion.ctrlAttr
  by_cases hp : p = i
  · subst hp
    cases hcm : s.canMutateB p with
    | false => rw [applyPair_no _ _ hcm]
    | true =>
      cases hc : s.controllers[p]? with
      | none =>
        exfalso
        unfold Accordion.canMutateB at hcm
        rw [hc] at hcm
        simp at hcm
      | some c =>
        rw [applyPair_ctrl_self _ _ hc hcm]
        exact deactCtrlAttrs_frame _ _ _ h1 h2
  · rw [applyPair_ctrl_other _ _ p hp]

theorem act_ctrlAttr_frame (s : Accordion) (i p : Nat) (n : String)
    (h1 : n ≠ "aria-expanded") (h2 : n ≠ "aria-disabled") :
    (s.activateContainerByController i).ctrlAttr p n = s.ctrlAttr p n := by
  rw [act_eq]
  unfold Accordion.ctrlAttr
  by_cases hp : p = i
  · subst hp
    cases hcm : s.canMutateB p with
    | false => rw [applyPair_no _ _ hcm]
    | true =>
      cases hc : s.controllers[p]? with
      | none =>
        exfalso
        unfold Accordion.canMutateB at hcm
        rw [hc] at hcm
        simp at hcm
      | some c =>
        rw [applyPair_ctrl_self _ _ hc hcm]
        exact actCtrlAttrs_frame _ _ _ h1 h2
  · rw [applyPair_ctrl_other _ _ p hp]

theorem deact_expanded_self (s : Accordion) (i : Nat) (h : s.canMutateB i = true) :
    (s.deactivateContainerByController i).ctrlAttr i "aria-expanded" = some "false" := by
  rw [deact_eq]
  unfold Accordion.ctrlAttr
  cases hc : s.controllers[i]? with
  | none =>
    exfalso
    unfold Accordion.canMutateB at h
    rw [hc] at h
    simp at h
  | some c =>
    rw [applyPair_ctrl_self _ _ hc h]
    exact deactCtrlAttrs_expanded _ _

theorem act_expanded_self (s : Accordion) (i : Nat) (h : s.canMutateB i = true) :
    (s.activateContainerByController i).ctrlAttr i "aria-expanded" = some "true" := by
  rw [act_eq]
  unfold Accordion.ctrlAttr
  cases hc : s.controllers[i]? with
  | none =>
    exfalso
    unfold Accordion.canMutateB at h
    rw [hc] at h
    simp at h
  | some c =>
    rw [applyPair_ctrl_self _ _ hc h]
    exact actCtrlAttrs_expanded _ _

theorem deact_ctrl_other (s : Accordion) (i p : Nat) (hp : p ≠ i) :
    (s.deactivateContainerByController i).controllers[p]? = s.controllers[p]? := by
  rw [deact_eq]
  exact applyPair_ctrl_other _ _ p hp

theorem act_ctrl_other (s : Accordion) (i p : Nat) (hp : p ≠ i) :
    (s.activateContainerByController i).controllers[p]? = s.controllers[p]? := by
  rw [act_eq]
  exact applyPair_ctrl_other _ _ p hp

theorem deact_expanded_cases (s : Accordion) (i p : Nat) :
    (s.deactivateContainerByController i).ctrlAttr p "aria-expanded" =
        s.ctrlAttr p "aria-expanded" ∨
      (s.deactivateContainerByController i).ctrlAttr p "aria-expanded" = some "false" := by
  by_cases hp : p = i
  · subst hp
    cases hcm : s.canMutateB p with
    | false =>
      left
      rw [deact_eq, applyPair_no _ _ hcm]
    | true => right; exact deact_expanded_self s p hcm
  · left
    unfold Accordion.ctrlAttr
    rw [deact_ctrl_other s i p hp]

theorem deact_disabled_wt (s : Accordion) (i p : Nat) (hwt : s.willToggle = true) :
    (s.deactivateContainerByController i).ctrlAttr p "aria-disabled" =
      s.ctrlAttr p "aria-disabled" := by
  rw [deact_eq]
  unfold Accordion.ctrlAttr
  by_cases hp : p = i
  · subst hp
    cases hcm : s.canMutateB p with
    | false => rw [applyPair_no _ _ hcm]
    | true =>
      cases hc : s.controllers[p]? with
      | none =>
        exfalso
        unfold Accordion.canMutateB at hcm
        rw [hc] at hcm
        simp at hcm
      | some c =>
        rw [applyPair_ctrl_self _ _ hc hcm, hwt]
        exact deactCtrlAttrs_disabled_wt _
  · rw [applyPair_ctrl_other _ _ p hp]

theorem act_disabled_wt (s : Accordion) (i p : Nat) (hwt : s.willToggle = true) :
    (s.activateContainerByController i).ctrlAttr p "aria-disabled" =
      s.ctrlAttr p "aria-disabled" := by
  rw [act_eq]
  unfold Accordion.ctrlAttr
  by_cases hp : p = i
  · subst hp
    cases hcm : s.canMutateB p with
    | false => rw [applyPair_no _ _ hcm]
    | true =>
      cases hc : s.controllers[p]? with
      | none =>
        exfalso
        unfold Accordion.canMutateB at hcm
        rw [hc] at hcm
        simp at hcm
      | some c =>
        rw [applyPair_ctrl_self _ _ hc hcm, hwt]
        exact actCtrlAttrs_disabled_wt _
  · rw [applyPair_ctrl_other _ _ p hp]

theorem deact_contAttr_frame (s : Accordion) (i q : Nat) (n : String) (hn : n ≠ "hidden") :
    (s.deactivateContainerByController i).contAttr q n = s.contAttr q n := by
  rw [deact_eq]
  unfold Accordion.contAttr
  cases hcm : s.canMutateB i with
  | false => rw [applyPair_no _ _ hcm]
  | true =>
    obtain ⟨c, j, k, hc, hj, hk, _, _, heq⟩ := applyPair_yes
      (deactCtrlAttrs s.willToggle) (fun a => setAttr a "hidden" "") hcm
    rw [heq]
    by_cases hq : q = j
    · subst hq
      rw [set_getElem?_some hk _, hk]
      exact getAttr_setAttr_ne _ _ _ _ hn
    · rw [List.getElem?_set_ne (fun h => hq h.symm)]

theorem act_contAttr_frame (s : Accordion) (i q : Nat) (n : String) (hn : n ≠ "hidden") :
    (s.activateContainerByController i).contAttr q n = s.contAttr q n := by
  rw [act_eq]
  unfold Accordion.contAttr
  cases hcm : s.canMutateB i with
  | false => rw [applyPair_no _ _ hcm]
  | true =>
    obtain ⟨c, j, k, hc, hj, hk, _, _, heq⟩ := applyPair_yes
      (actCtrlAttrs s.willToggle) (fun a => removeAttr a "hidden") hcm
    rw [heq]
    by_cases hq : q = j
    · subst hq
      rw [set_getElem?_some hk _, hk]
      exact getAttr_removeAttr_ne _ _ _ hn
    · rw [List.getElem?_set_ne (fun h => hq h.symm)]

theorem deact_hidden_cases (s : Accordion) (i q : Nat) :
    (s.deactivateContainerByController i).contAttr q "hidden" = s.contAttr q "hidden" ∨
      (s.deactivateContainerByController i).contAttr q "hidden" = some "" := by
  rw [deact_eq]
  unfold Accordion.contAttr
  cases hcm : s.canMutateB i with
  | false => left; rw [applyPair_no _ _ hcm]
  | true =>
    obtain ⟨c, j, k, hc, hj, hk, _, _, heq⟩ := applyPair_yes
      (deactCtrlAttrs s.willToggle) (fun a => setAttr a "hidden" "") hcm
    rw [heq]
    by_cases hq : q = j
    · subst hq
      right
      rw [set_getElem?_some hk _]
      exact getAttr_setAttr_self _ _ _
    · left
      rw [List.getElem?_set_ne (fun h => hq h.symm)]

theorem act_hidden_cases (s : Accordion) (i q : Nat) :
    (s.activateContainerByController i).contAttr q "hidden" = s.contAttr q "hidden" ∨
      (s.activateContainerByController i).contAttr q "hidden" = none := by
  rw [act_eq]
  unfold Accordion.contAttr
  cases hcm : s.canMutateB i with
  | false => left; rw [applyPair_no _ _ hcm]
  | true =>
    obtain ⟨c, j, k, hc, hj, hk, _, _, heq⟩ := applyPair_yes
      (actCtrlAttrs s.willToggle) (fun a => removeAttr a "hidden") hcm
    rw [heq]
    by_cases hq : q = j
    · subst hq
      right
      rw [set_getElem?_some hk _]
      exact getAttr_removeAttr_self _ _
    · left
      rw [List.getElem?_set_ne (fun h => hq h.symm)]

theorem deact_hidden_self (s : Accordion) (i : Nat) {c : Elem} {j : Nat}
    (hc : s.controllers[i]? = some c) (hj : s.findContainerIdx c = some j)
    (hcm : s.canMutateB i = true) :
    (s.deactivateContainerByController i).contAttr j "hidden" = some "" := by
  rw [deact_eq]
  unfold Accordion.contAttr
  obtain ⟨k, hk, hset⟩ := applyPair_cont_self
    (deactCtrlAttrs s.willToggle) (fun a => setAttr a "hidden" "") hc hj hcm
  rw [hset]
  exact getAttr_setAttr_self _ _ _

theorem act_hidden_self (s : Accordion) (i : Nat) {c : Elem} {j : Nat}
    (hc : s.controllers[i]? = some c) (hj : s.findContainerIdx c = some j)
    (hcm : s.canMutateB i = true) :
    (s.activateContainerByController i).contAttr j "hidden" = none := by
  rw [act_eq]
  unfold Accordion.contAttr
  obtain ⟨k, hk, hset⟩ := applyPair_cont_self
    (actCtrlAttrs s.willToggle) (fun a => removeAttr a "hidden") hc hj hcm
  rw [hset]
  exact getAttr_removeAttr_self _ _

theorem deact_cont_other (s : Accordion) (i q : Nat)
    (hq : ∀ c, s.controllers[i]? = some c → s.findContainerIdx c ≠ some q) :
    (s.deactivateContainerByController i).containers[q]? = s.containers[q]? := by
  rw [deact_eq]
  exact applyPair_cont_other _ _ q hq

theorem act_cont_other (s : Accordion) (i q : Nat)
    (hq : ∀ c, s.controllers[i]? = some c → s.findContainerIdx c ≠ some q) :
    (s.activateContainerByController i).containers[q]? = s.containers[q]? := by
  rw [act_eq]
  exact applyPair_cont_other _ _ q hq

theorem sameSkel_pairIdxOf {s t : Accordion} (h : SameSkel s t) (p : Nat) :
    t.pairIdxOf p = s.pairIdxOf p := by
  unfold Accordion.pairIdxOf
  rcases sameSkel_ctrl_pointwise h p with ⟨ht, hs⟩ | ⟨c', c, ht, hs, hcid, href⟩
  · rw [ht, hs]
  · simp only [ht, hs]
    rw [sameSkel_findContainerIdx h c']
    unfold Accordion.findContainerIdx
    rw [href]

theorem deact_hidden_of_pairIdx (s : Accordion) (i j : Nat)
    (hj : s.pairIdxOf i = some j) (hcm : s.canMutateB i = true) :
    (s.deactivateContainerByController i).contAttr j "hidden" = some "" := by
  unfold Accordion.pairIdxOf at hj
  cases hc : s.controllers[i]? with
  | none => rw [hc] at hj; simp at hj
  | some c =>
    rw [hc] at hj
    exact deact_hidden_self s i hc hj hcm

theorem act_hidden_of_pairIdx (s : Accordion) (i j : Nat)
    (hj : s.pairIdxOf i = some j) (hcm : s.canMutateB i = true) :
    (s.activateContainerByController i).contAttr j "hidden" = none := by
  unfold Accordion.pairIdxOf at hj
  cases hc : s.controllers[i]? with
  | none => rw [hc] at hj; simp at hj
  | some c =>
    rw [hc] at hj
    exact act_hidden_self s i hc hj hcm

theorem deactFold_sameSkel (xs : List Nat) :
    ∀ (s : Accordion), SameSkel s (s.deactFold xs) := by
  induction xs with
  | nil => intro s; exact sameSkel_rfl s
  | cons x rest ih =>
    intro s
    unfold Accordion.deactFold at ih ⊢
    simp only [List.foldl_cons]
    exact sameSkel_trans (deact_sameSkel s x) (ih (s.deactivateContainerByController x))

theorem deactFold_untouched (xs : List Nat) :
    ∀ (s : Accordion) (p : Nat), (∀ x ∈ xs, x ≠ p) →
      (s.deactFold xs).controllers[p]? = s.controllers[p]? := by
  induction xs with
  | nil => intro s p _; rfl
  | cons x rest ih =>
    intro s p hx
    unfold Accordion.deactFold at ih ⊢
    simp only [List.foldl_cons]
    rw [ih (s.deactivateContainerByController x) p (fun y hy => hx y (List.mem_cons_of_mem x hy))]
    exact deact_ctrl_other s x p (fun h => hx x (List.mem_cons_self x rest) h.symm)

theorem deactFold_false_persists (xs : List Nat) :
    ∀ (s : Accordion) (p : Nat),
      s.ctrlAttr p "aria-expanded" = some "false" →
      (s.deactFold xs).ctrlAttr p "aria-expanded" = some "false" := by
  induction xs with
  | nil => intro s p h; exact h
  | cons x rest ih =>
    intro s p h
    unfold Accordion.deactFold at ih ⊢
    simp only [List.foldl_cons]
    apply ih
    rcases deact_expanded_cases s x p with hcase | hcase
    · rw [hcase]; exact h
    · exact hcase

theorem deactFold_expanded_false (xs : List Nat) :
    ∀ (s : Accordion) (p : Nat), p ∈ xs → s.canMutateB p = true →
      (s.deactFold xs).ctrlAttr p "aria-expanded" = some "false" := by
  induction xs with
  | nil => intro s p h; simp at h
  | cons x rest ih =>
    intro s p hmem hcm
    unfold Accordion.deactFold at ih ⊢
    simp only [List.foldl_cons]
    by_cases hpx : p = x
    · subst hpx
      exact deactFold_false_persists rest _ p (deact_expanded_self s p hcm)
    · have hmem' : p ∈ rest := by
        cases List.mem_cons.mp hmem with
        | inl h => exact absurd h hpx
        | inr h => exact h
      exact ih _ p hmem' (by rw [sameSkel_canMutateB (deact_sameSkel s x) p]; exact hcm)

theorem deactFold_not_expanded (xs : List Nat) :
    ∀ (s : Accordion) (p : Nat),
      s.ctrlAttr p "aria-expanded" ≠ some "true" →
      (s.deactFold xs).ctrlAttr p "aria-expanded" ≠ some "true" := by
  induction xs with
  | nil => intro s p h; exact h
  | cons x rest ih =>
    intro s p h
    unfold Accordion.deactFold at ih ⊢
    simp only [List.foldl_cons]
    apply ih
    rcases deact_expanded_cases s x p with hcase | hcase
    · rw [hcase]; exact h
    · rw [hcase]; simp

theorem deactFold_hidden_persists (xs : List Nat) :
    ∀ (s : Accordion) (q : Nat),
      s.contAttr q "hidden" = some "" →
      (s.deactFold xs).contAttr q "hidden" = some "" := by
  induction xs with
  | nil => intro s q h; exact h
  | cons x rest ih =>
    intro s q h
    unfold Accordion.deactFold at ih ⊢
    simp only [List.foldl_cons]
    apply ih
    rcases deact_hidden_cases s x q with hcase | hcase
    · rw [hcase]; exact h
    · exact hcase

theorem deactFold_hidden_set (xs : List Nat) :
    ∀ (s : Accordion) (p j : Nat), p ∈ xs → s.canMutateB p = true →
      s.pairIdxOf p = some j →
      (s.deactFold xs).contAttr j "hidden" = some "" := by
  induction xs with
  | nil => intro s p j h; simp at h
  | cons x rest ih =>
    intro s p j hmem hcm hj
    unfold Accordion.deactFold at ih ⊢
    simp only [List.foldl_cons]
    by_cases hpx : p = x
    · subst hpx
      exact deactFold_hidden_persists rest _ j (deact_hidden_of_pairIdx s p j hj hcm)
    · have hmem' : p ∈ rest := by
        cases List.mem_cons.mp hmem with
        | inl h => exact absurd h hpx
        | inr h => exact h
      refine ih _ p j hmem' ?_ ?_
      · rw [sameSkel_canMutateB (deact_sameSkel s x) p]; exact hcm
      · rw [sameSkel_pairIdxOf (deact_sameSkel s x) p]; exact hj

theorem deactFold_ctrlAttr_frame (xs : List Nat) :
    ∀ (s : Accordion) (p : Nat) (n : String),
      n ≠ "aria-expanded" → n ≠ "aria-disabled" →
      (s.deactFold xs).ctrlAttr p n = s.ctrlAttr p n := by
  induction xs with
  | nil => intro s p n _ _; rfl
  | cons x rest ih =>
    intro s p n h1 h2
    unfold Accordion.deactFold at ih ⊢
    simp only [List.foldl_cons]
    rw [ih _ p n h1 h2]
    exact deact_ctrlAttr_frame s x p n h1 h2

theorem deactFold_contAttr_frame (xs : List Nat) :
    ∀ (s : Accordion) (q : Nat) (n : String), n ≠ "hidden" →
      (s.deactFold xs).contAttr q n = s.contAttr q n := by
  induction xs with
  | nil => intro s q n _; rfl
  | cons x rest ih =>
    intro s q n hn
    unfold Accordion.deactFold at ih ⊢
    simp only [List.foldl_cons]
    rw [ih _ q n hn]
    exact deact_contAttr_frame s x q n hn

theorem deactFold_disabled_wt (xs : List Nat) :
    ∀ (s : Accordion) (p : Nat), s.willToggle = true →
      (s.deactFold xs).ctrlAttr p "aria-disabled" = s.ctrlAttr p "aria-disabled" := by
  induction xs with
  | nil => intro s p _; rfl
  | cons x rest ih =>
    intro s p hwt
    unfold Accordion.deactFold at ih ⊢
    simp only [List.foldl_cons]
    rw [ih _ p (by rw [sameSkel_willToggle (deact_sameSkel s x)]; exact hwt)]
    exact deact_disabled_wt s x p hwt

theorem deactFold_noop (xs : List Nat) :
    ∀ (s : Accordion), (∀ x ∈ xs, s.canMutateB x = false) → s.deactFold xs = s := by
  induction xs with
  | nil => intro s _; rfl
  | cons x rest ih =>
    intro s h
    unfold Accordion.deactFold at ih ⊢
    simp only [List.foldl_cons]
    have hx : s.deactivateContainerByController x = s := by
      rw [deact_eq]
      exact applyPair_no _ _ (h x (List.mem_cons_self x rest))
    rw [hx]
    exact ih s (fun y hy => h y (List.mem_cons_of_mem x hy))

theorem ctrlAttr_congr {s t : Accordion} {p : Nat}
    (h : t.controllers[p]? = s.controllers[p]?) (n : String) :
    t.ctrlAttr p n = s.ctrlAttr p n := by
  unfold Accordion.ctrlAttr
  rw [h]

theorem contAttr_congr {s t : Accordion} {q : Nat}
    (h : t.containers[q]? = s.containers[q]?) (n : String) :
    t.contAttr q n = s.contAttr q n := by
  unfold Accordion.contAttr
  rw [h]

theorem expandedAt_congr {s t : Accordion} {p : Nat}
    (h : t.controllers[p]? = s.controllers[p]?) :
    t.expandedAt p = s.expandedAt p := by
  unfold Accordion.expandedAt
  rw [h]
  cases s.controllers[p]? <;> rfl

theorem validPair_lt {s : Accordion} {i j : Nat} (h : s.validPairB i j = true) :
    i < s.controllers.length := by
  obtain ⟨c, k, hc, _, _, _, _⟩ := validPair_parts h
  exact (List.getElem?_eq_some_iff.mp hc).1

theorem pairIdxOf_of_validPair {s : Accordion} {i j : Nat} (h : s.validPairB i j = true) :
    s.pairIdxOf i = some j := by
  obtain ⟨c, k, hc, hk, _, _, hidx⟩ := validPair_parts h
  unfold Accordion.pairIdxOf
  rw [hc]
  exact hidx

theorem mem_activeIdxsExcept {s : Accordion} {i p : Nat} :
    p ∈ s.activeIdxsExcept i ↔
      p < s.controllers.length ∧ p ≠ i ∧ s.expandedAt p = true := by
  unfold Accordion.activeIdxsExcept
  rw [List.mem_filter, List.mem_range]
  simp only [Bool.and_eq_true, bne_iff_ne, ne_eq, Bool.not_eq_true']
  constructor
  · rintro ⟨h1, h2, h3⟩
    refine ⟨h1, ?_, h3⟩
    intro he
    rw [he] at h2
    simp at h2
  · rintro ⟨h1, h2, h3⟩
    refine ⟨h1, ?_, h3⟩
    simp [h2]

theorem expandedAt_false_iff (s : Accordion) (p : Nat) :
    s.expandedAt p = false ↔ s.ctrlAttr p "aria-expanded" ≠ some "true" := by
  rw [expandedAt_eq]
  simp

theorem expandedAt_true_iff (s : Accordion) (p : Nat) :
    s.expandedAt p = true ↔ s.ctrlAttr p "aria-expanded" = some "true" := by
  rw [expandedAt_eq]
  simp

theorem update_eq_act {s : Accordion} {i : Nat}
    (hmany : s.allowManyContainers = false)
    (hexp : (s.deactFold (s.activeIdxsExcept i)).expandedAt i = false) :
    s.updateContainerByController i =
      (s.deactFold (s.activeIdxsExcept i)).activateContainerByController i := by
  unfold Accordion.updateContainerByController
  rw [hmany]
  simp [hexp]

theorem update_eq_deact {s : Accordion} {i : Nat}
    (hmany : s.allowManyContainers = false)
    (hexp : (s.deactFold (s.activeIdxsExcept i)).expandedAt i = true)
    (hwt : (s.deactFold (s.activeIdxsExcept i)).willToggle = true) :
    s.updateContainerByController i =
      (s.deactFold (s.activeIdxsExcept i)).deactivateContainerByController i := by
  unfold Accordion.updateContainerByController
  rw [hmany]
  simp [hexp, hwt]

theorem update_eq_still {s : Accordion} {i : Nat}
    (hmany : s.allowManyContainers = false)
    (hexp : (s.deactFold (s.activeIdxsExcept i)).expandedAt i = true)
    (hwt : (s.deactFold (s.activeIdxsExcept i)).willToggle = false) :
    s.updateContainerByController i = s.deactFold (s.activeIdxsExcept i) := by
  unfold Accordion.updateContainerByController
  rw [hmany]
  simp [hexp, hwt]

theorem update_eq_act_many {s : Accordion} {i : Nat}
    (hmany : s.allowManyContainers = true)
    (hexp : s.expandedAt i = false) :
    s.updateContainerByController i = s.activateContainerByController i := by
  unfold Accordion.updateContainerByController
  rw [hmany]
  simp [hexp]

theorem update_eq_deact_many {s : Accordion} {i : Nat}
    (hmany : s.allowManyContainers = true)
    (hexp : s.expandedAt i = true)
    (hwt : s.willToggle = true) :
    s.updateContainerByController i = s.deactivateContainerByController i := by
  unfold Accordion.updateContainerByController
  rw [hmany]
  simp [hexp, hwt]

theorem willToggle_of_many {s : Accordion} (h : s.allowManyContainers = true) :
    s.willToggle = true := by
  unfold Accordion.willToggle
  rw [h]
  rfl

/-- Claim C1 (amended). With the many-containers attribute absent, toggling a
collapsed, validly paired controller B while a validly paired controller A
(paired with a different container) is expanded collapses A (aria-expanded
"false", its container hidden), expands B (container unhidden), and leaves
no two validly paired controllers simultaneously expanded. -/
theorem C1_single_open (s : Accordion) (a ja b jb : Nat)
    (hmany : s.allowManyContainers = false)
    (hva : s.validPairB a ja = true) (hvb : s.validPairB b jb = true)
    (hab : a ≠ b) (hjab : ja ≠ jb)
    (hexpA : s.expandedAt a = true) (hexpB : s.expandedAt b = false) :
    (s.updateContainerByController b).ctrlAttr a "aria-expanded" = some "false" ∧
      (s.updateContainerByController b).contAttr ja "hidden" = some "" ∧
      (s.updateContainerByController b).ctrlAttr b "aria-expanded" = some "true" ∧
      (s.updateContainerByController b).contAttr jb "hidden" = none ∧
      (∀ p q jp jq, p ≠ q → s.validPairB p jp = true → s.validPairB q jq = true →
        ¬((s.updateContainerByController b).expandedAt p = true ∧
          (s.updateContainerByController b).expandedAt q = true)) := by
  have hskel1 : SameSkel s (s.deactFold (s.activeIdxsExcept b)) := deactFold_sameSkel _ s
  have hbu : (s.deactFold (s.activeIdxsExcept b)).controllers[b]? = s.controllers[b]? :=
    deactFold_untouched _ s b (fun x hx => (mem_activeIdxsExcept.mp hx).2.1)
  have hexpB1 : (s.deactFold (s.activeIdxsExcept b)).expandedAt b = false :=
    (expandedAt_congr hbu).trans hexpB
  have hupd := update_eq_act hmany hexpB1
  have hcmb : s.canMutateB b = true := canMutateB_of_validPair hvb
  have hcmb1 : (s.deactFold (s.activeIdxsExcept b)).canMutateB b = true := by
    rw [sameSkel_canMutateB hskel1]
    exact hcmb
  have hcma : s.canMutateB a = true := canMutateB_of_validPair hva
  have hmemA : a ∈ s.activeIdxsExcept b :=
    mem_activeIdxsExcept.mpr ⟨validPair_lt hva, hab, hexpA⟩
  have hpb1 : (s.deactFold (s.activeIdxsExcept b)).pairIdxOf b = some jb := by
    rw [sameSkel_pairIdxOf hskel1]
    exact pairIdxOf_of_validPair hvb
  have hkey : ∀ p jp, p ≠ b → s.validPairB p jp = true →
      (s.updateContainerByController b).expandedAt p = false := by
    intro p jp hpb hvp
    rw [hupd]
    rw [expandedAt_congr (act_ctrl_other _ b p hpb)]
    rw [expandedAt_false_iff]
    by_cases hexp : s.expandedAt p = true
    · have hm : p ∈ s.activeIdxsExcept b :=
        mem_activeIdxsExcept.mpr ⟨validPair_lt hvp, hpb, hexp⟩
      rw [deactFold_expanded_false _ s p hm (canMutateB_of_validPair hvp)]
      simp
    · apply deactFold_not_expanded
      rw [← expandedAt_false_iff]
      exact Bool.not_eq_true _ ▸ (Bool.eq_false_iff.mpr hexp)
  refine ⟨?_, ?_, ?_, ?_, ?_⟩
  · rw [hupd]
    rw [ctrlAttr_congr (act_ctrl_other _ b a hab)]
    exact deactFold_expanded_false _ s a hmemA hcma
  · rw [hupd]
    have hq : ∀ c, (s.deactFold (s.activeIdxsExcept b)).controllers[b]? = some c →
        (s.deactFold (s.activeIdxsExcept b)).findContainerIdx c ≠ some ja := by
      intro c hc hcontra
      have h0 := hpb1
      unfold Accordion.pairIdxOf at h0
      rw [hc] at h0
      have h1 : (s.deactFold (s.activeIdxsExcept b)).findContainerIdx c = some jb := h0
      rw [hcontra] at h1
      injection h1 with e
      exact hjab e
    rw [contAttr_congr (act_cont_other _ b ja hq)]
    exact deactFold_hidden_set _ s a ja hmemA hcma (pairIdxOf_of_validPair hva)
  · rw [hupd]
    exact act_expanded_self _ b hcmb1
  · rw [hupd]
    exact act_hidden_of_pairIdx _ b jb hpb1 hcmb1
  · intro p q jp jq hpq hvp hvq hcon
    by_cases hpb : p = b
    · subst hpb
      have : q ≠ p := fun h => hpq h.symm
      rw [hkey q jq this hvq] at hcon
      exact Bool.false_ne_true hcon.2
    · rw [hkey p jp hpb hvp] at hcon
      exact Bool.false_ne_true hcon.1

/-- Claim C1, counterexample to the claim as stated: a third expanded
controller whose aria-controls names no container survives the exclusivity
pass (its deactivation fails validation), so after toggling B two
controllers are both expanded. -/
theorem C1_counterexample :
    (cexC1.allowManyContainers = false ∧ cexC1.validPairB 0 0 = true ∧
      cexC1.validPairB 1 1 = true ∧ cexC1.expandedAt 0 = true ∧
      cexC1.expandedAt 1 = false) ∧
    ((cexC1.updateContainerByController 1).expandedAt 1 = true ∧
      (cexC1.updateContainerByController 1).expandedAt 2 = true) := by decide

/-- Claim C1 witness: the amended theorem applied to a concrete two-pair
widget. -/
theorem C1_witness :
    (witC1.allowManyContainers = false ∧ witC1.validPairB 0 0 = true ∧
      witC1.validPairB 1 1 = true ∧ (0 : Nat) ≠ 1 ∧
      witC1.expandedAt 0 = true ∧ witC1.expandedAt 1 = false) ∧
    ((witC1.updateContainerByController 1).ctrlAttr 0 "aria-expanded" = some "false" ∧
      (witC1.updateContainerByController 1).contAttr 0 "hidden" = some "" ∧
      (witC1.updateContainerByController 1).ctrlAttr 1 "aria-expanded" = some "true" ∧
      (witC1.updateContainerByController 1).contAttr 1 "hidden" = none ∧
      (∀ p q jp jq, p ≠ q → witC1.validPairB p jp = true → witC1.validPairB q jq = true →
        ¬((witC1.updateContainerByController 1).expandedAt p = true ∧
          (witC1.updateContainerByController 1).expandedAt q = true))) :=
  ⟨⟨by decide, by decide, by decide, by decide, by decide, by decide⟩,
    C1_single_open witC1 0 0 1 1 (by decide) (by decide) (by decide) (by decide)
      (by decide) (by decide) (by decide)⟩

theorem update_of_canMutate_false {s : Accordion} {i : Nat} (h : s.canMutateB i = false) :
    s.updateContainerByController i =
      if s.allowManyContainers then s else s.deactFold (s.activeIdxsExcept i) := by
  by_cases hm : s.allowManyContainers = true
  · rw [hm, if_pos rfl]
    by_cases hexp : s.expandedAt i = true
    · rw [update_eq_deact_many hm hexp (willToggle_of_many hm), deact_eq, applyPair_no _ _ h]
    · have hexp' : s.expandedAt i = false := by
        revert hexp; cases s.expandedAt i <;> simp
      rw [update_eq_act_many hm hexp', act_eq, applyPair_no _ _ h]
  · have hm' : s.allowManyContainers = false := by
      revert hm; cases s.allowManyContainers <;> simp
    rw [hm', if_neg (by simp)]
    have hskel : SameSkel s (s.deactFold (s.activeIdxsExcept i)) := deactFold_sameSkel _ s
    have h1 : (s.deactFold (s.activeIdxsExcept i)).canMutateB i = false := by
      rw [sameSkel_canMutateB hskel]
      exact h
    by_cases hexp : (s.deactFold (s.activeIdxsExcept i)).expandedAt i = true
    · by_cases hwt : (s.deactFold (s.activeIdxsExcept i)).willToggle = true
      · rw [update_eq_deact hm' hexp hwt, deact_eq, applyPair_no _ _ h1]
      · have hwt' : (s.deactFold (s.activeIdxsExcept i)).willToggle = false := by
          revert hwt; cases (s.deactFold (s.activeIdxsExcept i)).willToggle <;> simp
        exact update_eq_still hm' hexp hwt'
    · have hexp' : (s.deactFold (s.activeIdxsExcept i)).expandedAt i = false := by
        revert hexp; cases (s.deactFold (s.activeIdxsExcept i)).expandedAt i <;> simp
      rw [update_eq_act hm' hexp', act_eq, applyPair_no _ _ h1]

/-- Claim C2 (amended). Toggling a controller whose aria-controls names no
container identifier leaves that controller's attributes unchanged; when
many-containers is set, or when no other controller is expanded, the whole
state is unchanged. (As stated the claim is false: when many-containers is
absent, the exclusivity pass runs before validation and still collapses the
other expanded controllers.) -/
theorem C2_invalid_ref (s : Accordion) (i : Nat) (c : Elem)
    (hc : s.controllers[i]? = some c)
    (hinv : s.isController c = false) :
    (s.updateContainerByController i).controllers[i]? = some c ∧
      (s.allowManyContainers = true → s.updateContainerByController i = s) ∧
      ((∀ p, p ≠ i → s.expandedAt p = false) → s.updateContainerByController i = s) := by
  have hcm : s.canMutateB i = false := by
    unfold Accordion.canMutateB
    rw [hc]
    simp [hinv]
  have hu := update_of_canMutate_false hcm
  refine ⟨?_, ?_, ?_⟩
  · rw [hu]
    by_cases hm : s.allowManyContainers = true
    · rw [hm, if_pos rfl]
      exact hc
    · have hm' : s.allowManyContainers = false := by
        revert hm; cases s.allowManyContainers <;> simp
      rw [hm', if_neg (by simp)]
      rw [deactFold_untouched _ s i (fun x hx => (mem_activeIdxsExcept.mp hx).2.1)]
      exact hc
  · intro hm
    rw [hu, hm, if_pos rfl]
  · intro hall
    rw [hu]
    by_cases hm : s.allowManyContainers = true
    · rw [hm, if_pos rfl]
    · have hm' : s.allowManyContainers = false := by
        revert hm; cases s.allowManyContainers <;> simp
      rw [hm', if_neg (by simp)]
      have hempty : s.activeIdxsExcept i = [] := by
        unfold Accordion.activeIdxsExcept
        rw [List.filter_eq_nil_iff]
        intro p _
        by_cases hpi : p = i
        · subst hpi
          simp
        · rw [hall p hpi]
          simp
      rw [hempty]
      rfl

/-- Claim C2, counterexample to the claim as stated: toggling the invalid
controller c2 still collapses the expanded valid controller c1 and hides
its container, so attributes of other elements do change. -/
theorem C2_counterexample :
    (cexC2.controllers[1]? = some ⟨"c2", [("aria-controls", "nope")]⟩ ∧
      cexC2.isController ⟨"c2", [("aria-controls", "nope")]⟩ = false ∧
      cexC2.ctrlAttr 0 "aria-expanded" = some "true" ∧
      cexC2.contAttr 0 "hidden" = none) ∧
    ((cexC2.updateContainerByController 1).ctrlAttr 0 "aria-expanded" = some "false" ∧
      (cexC2.updateContainerByController 1).contAttr 0 "hidden" = some "") := by decide

/-- Claim C2 witness: the amended theorem applied to a concrete widget with
many-containers set. -/
theorem C2_witness :
    (witC2.controllers[1]? = some ⟨"c2", [("aria-controls", "nope")]⟩ ∧
      witC2.isController ⟨"c2", [("aria-controls", "nope")]⟩ = false) ∧
    ((witC2.updateContainerByController 1).controllers[1]? =
        some ⟨"c2", [("aria-controls", "nope")]⟩ ∧
      (witC2.allowManyContainers = true → witC2.updateContainerByController 1 = witC2) ∧
      ((∀ p, p ≠ 1 → witC2.expandedAt p = false) →
        witC2.updateContainerByController 1 = witC2)) :=
  ⟨⟨by decide, by decide⟩,
    C2_invalid_ref witC2 1 ⟨"c2", [("aria-controls", "nope")]⟩ (by decide) (by decide)⟩

theorem deactFold_hidden_cases (xs : List Nat) :
    ∀ (s : Accordion) (q : Nat),
      (s.deactFold xs).contAttr q "hidden" = s.contAttr q "hidden" ∨
        (s.deactFold xs).contAttr q "hidden" = some "" := by
  induction xs with
  | nil => intro s q; left; rfl
  | cons x rest ih =>
    intro s q
    unfold Accordion.deactFold at ih ⊢
    simp only [List.foldl_cons]
    rcases ih (s.deactivateContainerByController x) q with hcase | hcase
    · rcases deact_hidden_cases s x q with h2 | h2
      · left; rw [hcase, h2]
      · right; rw [hcase, h2]
    · right; exact hcase

theorem update_act_shape (s : Accordion) (i : Nat) (hexp : s.expandedAt i = false) :
    ∃ A : Accordion, s.updateContainerByController i = A.activateContainerByController i ∧
      SameSkel s A ∧
      A.controllers[i]? = s.controllers[i]? ∧
      (∀ q n, n ≠ "hidden" → A.contAttr q n = s.contAttr q n) ∧
      (∀ q, A.contAttr q "hidden" = s.contAttr q "hidden" ∨ A.contAttr q "hidden" = some "") ∧
      (s.willToggle = true → ∀ p, A.ctrlAttr p "aria-disabled" = s.ctrlAttr p "aria-disabled") ∧
      (∀ p n, n ≠ "aria-expanded" → n ≠ "aria-disabled" → A.ctrlAttr p n = s.ctrlAttr p n) := by
  by_cases hm : s.allowManyContainers = true
  · exact ⟨s, update_eq_act_many hm hexp, sameSkel_rfl s, rfl,
      fun _ _ _ => rfl, fun _ => Or.inl rfl, fun _ _ => rfl, fun _ _ _ _ => rfl⟩
  · have hm' : s.allowManyContainers = false := by
      revert hm; cases s.allowManyContainers <;> simp
    have huntouched : (s.deactFold (s.activeIdxsExcept i)).controllers[i]? = s.controllers[i]? :=
      deactFold_untouched _ s i (fun x hx => (mem_activeIdxsExcept.mp hx).2.1)
    have hexp1 : (s.deactFold (s.activeIdxsExcept i)).expandedAt i = false :=
      (expandedAt_congr huntouched).trans hexp
    refine ⟨s.deactFold (s.activeIdxsExcept i), update_eq_act hm' hexp1,
      deactFold_sameSkel _ s, huntouched, ?_, ?_, ?_, ?_⟩
    · intro q n hn
      exact deactFold_contAttr_frame _ s q n hn
    · intro q
      exact deactFold_hidden_cases _ s q
    · intro hwt p
      exact deactFold_disabled_wt _ s p hwt
    · intro p n h1 h2
      exact deactFold_ctrlAttr_frame _ s p n h1 h2

theorem update_deact_shape (s : Accordion) (i : Nat) (hexp : s.expandedAt i = true)
    (hwt : s.willToggle = true) :
    ∃ A : Accordion, s.updateContainerByController i = A.deactivateContainerByController i ∧
      SameSkel s A ∧
      A.controllers[i]? = s.controllers[i]? ∧
      (∀ q n, n ≠ "hidden" → A.contAttr q n = s.contAttr q n) ∧
      (∀ q, A.contAttr q "hidden" = s.contAttr q "hidden" ∨ A.contAttr q "hidden" = some "") ∧
      (∀ p, A.ctrlAttr p "aria-disabled" = s.ctrlAttr p "aria-disabled") ∧
      (∀ p n, n ≠ "aria-expanded" → n ≠ "aria-disabled" → A.ctrlAttr p n = s.ctrlAttr p n) := by
  by_cases hm : s.allowManyContainers = true
  · exact ⟨s, update_eq_deact_many hm hexp hwt, sameSkel_rfl s, rfl,
      fun _ _ _ => rfl, fun _ => Or.inl rfl, fun _ => rfl, fun _ _ _ _ => rfl⟩
  · have hm' : s.allowManyContainers = false := by
      revert hm; cases s.allowManyContainers <;> simp
    have huntouched : (s.deactFold (s.activeIdxsExcept i)).controllers[i]? = s.controllers[i]? :=
      deactFold_untouched _ s i (fun x hx => (mem_activeIdxsExcept.mp hx).2.1)
    have hexp1 : (s.deactFold (s.activeIdxsExcept i)).expandedAt i = true :=
      (expandedAt_congr huntouched).trans hexp
    have hwt1 : (s.deactFold (s.activeIdxsExcept i)).willToggle = true := by
      rw [sameSkel_willToggle (deactFold_sameSkel _ s)]
      exact hwt
    refine ⟨s.deactFold (s.activeIdxsExcept i), update_eq_deact hm' hexp1 hwt1,
      deactFold_sameSkel _ s, huntouched, ?_, ?_, ?_, ?_⟩
    · intro q n hn
      exact deactFold_contAttr_frame _ s q n hn
    · intro q
      exact deactFold_hidden_cases _ s q
    · intro p
      exact deactFold_disabled_wt _ s p hwt
    · intro p n h1 h2
      exact deactFold_ctrlAttr_frame _ s p n h1 h2

/-- Claim C5 (amended). Toggling an expanded, validly paired controller when
toggling-closed is allowed sets aria-expanded "false" and sets hidden on
its container, and leaves aria-disabled exactly as it was (the code removes
aria-disabled only in deactivations performed while willToggle() is false,
never here). -/
theorem C5_deactivate (s : Accordion) (i j : Nat)
    (hv : s.validPairB i j = true)
    (hwt : s.willToggle = true)
    (hexp : s.expandedAt i = true) :
    (s.updateContainerByController i).ctrlAttr i "aria-expanded" = some "false" ∧
      (s.updateContainerByController i).contAttr j "hidden" = some "" ∧
      (s.updateContainerByController i).ctrlAttr i "aria-disabled" =
        s.ctrlAttr i "aria-disabled" := by
  obtain ⟨A, hu, hskel, huc, hcont, hhid, hdis, hctrl⟩ := update_deact_shape s i hexp hwt
  have hcm : A.canMutateB i = true := by
    rw [sameSkel_canMutateB hskel]
    exact canMutateB_of_validPair hv
  have hwtA : A.willToggle = true := by
    rw [sameSkel_willToggle hskel]
    exact hwt
  have hpj : A.pairIdxOf i = some j := by
    rw [sameSkel_pairIdxOf hskel]
    exact pairIdxOf_of_validPair hv
  refine ⟨?_, ?_, ?_⟩
  · rw [hu]
    exact deact_expanded_self A i hcm
  · rw [hu]
    exact deact_hidden_of_pairIdx A i j hpj hcm
  · rw [hu]
    rw [deact_disabled_wt A i i hwtA]
    exact hdis i

/-- Claim C5, counterexample to the claim as stated: with the toggle flag
set, deactivating an expanded controller carrying aria-disabled "true"
leaves aria-disabled in place, though the claim says it is removed. -/
theorem C5_counterexample :
    (cexC5.validPairB 0 0 = true ∧ cexC5.willToggle = true ∧
      cexC5.expandedAt 0 = true ∧ cexC5.ctrlAttr 0 "aria-disabled" = some "true") ∧
    ((cexC5.updateContainerByController 0).ctrlAttr 0 "aria-expanded" = some "false" ∧
      (cexC5.updateContainerByController 0).ctrlAttr 0 "aria-disabled" = some "true") := by
  decide

/-- Claim C5 witness: the amended theorem applied to the concrete widget. -/
theorem C5_witness :
    (cexC5.validPairB 0 0 = true ∧ cexC5.willToggle = true ∧ cexC5.expandedAt 0 = true) ∧
    ((cexC5.updateContainerByController 0).ctrlAttr 0 "aria-expanded" = some "false" ∧
      (cexC5.updateContainerByController 0).contAttr 0 "hidden" = some "" ∧
      (cexC5.updateContainerByController 0).ctrlAttr 0 "aria-disabled" =
        cexC5.ctrlAttr 0 "aria-disabled") :=
  ⟨⟨by decide, by decide, by decide⟩,
    C5_deactivate cexC5 0 0 (by decide) (by decide) (by decide)⟩

/-- Claim C6 (amended). With many-containers set, toggling collapsed valid
pairs A then B expands both and unhides both containers; provided neither
controller carried aria-disabled beforehand, neither carries it afterwards
(activation under an implied toggle permission never adds it). -/
theorem C6_many_open (s : Accordion) (a ja b jb : Nat)
    (hmany : s.allowManyContainers = true)
    (hva : s.validPairB a ja = true) (hvb : s.validPairB b jb = true)
    (hab : a ≠ b)
    (hexpA : s.expandedAt a = false) (hexpB : s.expandedAt b = false)
    (hdisA : s.ctrlAttr a "aria-disabled" = none)
    (hdisB : s.ctrlAttr b "aria-disabled" = none) :
    (((s.updateContainerByController a).updateContainerByController b).ctrlAttr a
        "aria-expanded" = some "true") ∧
      (((s.updateContainerByController a).updateContainerByController b).ctrlAttr b
        "aria-expanded" = some "true") ∧
      (((s.updateContainerByController a).updateContainerByController b).contAttr ja
        "hidden" = none) ∧
      (((s.updateContainerByController a).updateContainerByController b).contAttr jb
        "hidden" = none) ∧
      (((s.updateContainerByController a).updateContainerByController b).ctrlAttr a
        "aria-disabled" = none) ∧
      (((s.updateContainerByController a).updateContainerByController b).ctrlAttr b
        "aria-disabled" = none) := by
  have hwt : s.willToggle = true := willToggle_of_many hmany
  have hu1 : s.updateContainerByController a = s.activateContainerByController a :=
    update_eq_act_many hmany hexpA
  have hcma : s.canMutateB a = true := canMutateB_of_validPair hva
  have hskel1 : SameSkel s (s.updateContainerByController a) := by
    rw [hu1]
    exact act_sameSkel s a
  have hexpA1 : (s.updateContainerByController a).ctrlAttr a "aria-expanded" = some "true" := by
    rw [hu1]
    exact act_expanded_self s a hcma
  have hjaA1 : (s.updateContainerByController a).contAttr ja "hidden" = none := by
    rw [hu1]
    exact act_hidden_of_pairIdx s a ja (pairIdxOf_of_validPair hva) hcma
  have hdisA1 : (s.updateContainerByController a).ctrlAttr a "aria-disabled" = none := by
    rw [hu1, act_disabled_wt s a a hwt]
    exact hdisA
  have hdisB1 : (s.updateContainerByController a).ctrlAttr b "aria-disabled" = none := by
    rw [hu1, act_disabled_wt s a b hwt]
    exact hdisB
  have hbu : (s.updateContainerByController a).controllers[b]? = s.controllers[b]? := by
    rw [hu1]
    exact act_ctrl_other s a b (fun h => hab h.symm)
  have hexpB1 : (s.updateContainerByController a).expandedAt b = false :=
    (expandedAt_congr hbu).trans hexpB
  have hmany1 : (s.updateContainerByController a).allowManyContainers = true := by
    rw [sameSkel_allowMany hskel1]
    exact hmany
  have hwt1 : (s.updateContainerByController a).willToggle = true := willToggle_of_many hmany1
  have hu2 : (s.updateContainerByController a).updateContainerByController b =
      (s.updateContainerByController a).activateContainerByController b :=
    update_eq_act_many hmany1 hexpB1
  have hcmb1 : (s.updateContainerByController a).canMutateB b = true := by
    rw [sameSkel_canMutateB hskel1]
    exact canMutateB_of_validPair hvb
  have hpjb1 : (s.updateContainerByController a).pairIdxOf b = some jb := by
    rw [sameSkel_pairIdxOf hskel1]
    exact pairIdxOf_of_validPair hvb
  refine ⟨?_, ?_, ?_, ?_, ?_, ?_⟩
  · rw [hu2]
    rw [ctrlAttr_congr (act_ctrl_other _ b a hab)]
    exact hexpA1
  · rw [hu2]
    exact act_expanded_self _ b hcmb1
  · rw [hu2]
    rcases act_hidden_cases (s.updateContainerByController a) b ja with hcase | hcase
    · rw [hcase]
      exact hjaA1
    · exact hcase
  · rw [hu2]
    exact act_hidden_of_pairIdx _ b jb hpjb1 hcmb1
  · rw [hu2, act_disabled_wt _ b a hwt1]
    exact hdisA1
  · rw [hu2, act_disabled_wt _ b b hwt1]
    exact hdisB1

/-- Claim C6, counterexample to the claim as stated: a controller with a
preset aria-disabled "true" still carries it after both toggles, so
"neither controller carrying aria-disabled" fails without the added
hypothesis. -/
theorem C6_counterexample :
    (cexC6.allowManyContainers = true ∧ cexC6.validPairB 0 0 = true ∧
      cexC6.validPairB 1 1 = true ∧ cexC6.expandedAt 0 = false ∧
      cexC6.expandedAt 1 = false) ∧
    (((cexC6.updateContainerByController 0).updateContainerByController 1).ctrlAttr 0
        "aria-expanded" = some "true" ∧
      ((cexC6.updateContainerByController 0).updateContainerByController 1).ctrlAttr 0
        "aria-disabled" = some "true") := by decide

/-- Claim C6 witness: the amended theorem applied to a concrete
many-containers widget. -/
theorem C6_witness :
    (witC6.allowManyContainers = true ∧ witC6.validPairB 0 0 = true ∧
      witC6.validPairB 1 1 = true ∧ (0 : Nat) ≠ 1 ∧
      witC6.expandedAt 0 = false ∧ witC6.expandedAt 1 = false ∧
      witC6.ctrlAttr 0 "aria-disabled" = none ∧ witC6.ctrlAttr 1 "aria-disabled" = none) ∧
    (((witC6.updateContainerByController 0).updateContainerByController 1).ctrlAttr 0
        "aria-expanded" = some "true" ∧
      ((witC6.updateContainerByController 0).updateContainerByController 1).ctrlAttr 1
        "aria-expanded" = some "true" ∧
      ((witC6.updateContainerByController 0).updateContainerByController 1).contAttr 0
        "hidden" = none ∧
      ((witC6.updateContainerByController 0).updateContainerByController 1).contAttr 1
        "hidden" = none ∧
      ((witC6.updateContainerByController 0).updateContainerByController 1).ctrlAttr 0
        "aria-disabled" = none ∧
      ((witC6.updateContainerByController 0).updateContainerByController 1).ctrlAttr 1
        "aria-disabled" = none) :=
  ⟨⟨by decide, by decide, by decide, by decide, by decide, by decide, by decide, by decide⟩,
    C6_many_open witC6 0 0 1 1 (by decide) (by decide) (by decide) (by decide)
      (by decide) (by decide) (by decide) (by decide)⟩

/-- Claim C7 (amended). Starting from the canonical collapsed rest state
(aria-expanded explicitly "false", hidden with value "") of a validly
paired pair, with toggling-closed allowed, toggling twice restores both the
controller's and the container's attribute maps pointwise. -/
theorem C7_double_toggle (s : Accordion) (i j : Nat)
    (hv : s.validPairB i j = true)
    (hwt : s.willToggle = true)
    (hexp : s.ctrlAttr i "aria-expanded" = some "false")
    (hhid : s.contAttr j "hidden" = some "") :
    ∀ n, ((s.updateContainerByController i).updateContainerByController i).ctrlAttr i n =
        s.ctrlAttr i n ∧
      ((s.updateContainerByController i).updateContainerByController i).contAttr j n =
        s.contAttr j n := by
  have hexpB : s.expandedAt i = false := by
    rw [expandedAt_eq, hexp]
    rfl
  obtain ⟨A, hu1, hskelA, _, hcontA, _, hdisA, hctrlA⟩ := update_act_shape s i hexpB
  have hcmA : A.canMutateB i = true := by
    rw [sameSkel_canMutateB hskelA]
    exact canMutateB_of_validPair hv
  have hwtA : A.willToggle = true := by
    rw [sameSkel_willToggle hskelA]
    exact hwt
  have hpjA : A.pairIdxOf i = some j := by
    rw [sameSkel_pairIdxOf hskelA]
    exact pairIdxOf_of_validPair hv
  have hskel1 : SameSkel s (s.updateContainerByController i) := by
    rw [hu1]
    exact sameSkel_trans hskelA (act_sameSkel A i)
  have hexp1 : (s.updateContainerByController i).ctrlAttr i "aria-expanded" = some "true" := by
    rw [hu1]
    exact act_expanded_self A i hcmA
  have hexpAt1 : (s.updateContainerByController i).expandedAt i = true := by
    rw [expandedAt_eq, hexp1]
    rfl
  have hdis1 : (s.updateContainerByController i).ctrlAttr i "aria-disabled" =
      s.ctrlAttr i "aria-disabled" := by
    rw [hu1, act_disabled_wt A i i hwtA]
    exact hdisA hwt i
  have hctrl1 : ∀ n, n ≠ "aria-expanded" → n ≠ "aria-disabled" →
      (s.updateContainerByController i).ctrlAttr i n = s.ctrlAttr i n := by
    intro n h1 h2
    rw [hu1, act_ctrlAttr_frame A i i n h1 h2]
    exact hctrlA i n h1 h2
  have hhid1 : (s.updateContainerByController i).contAttr j "hidden" = none := by
    rw [hu1]
    exact act_hidden_of_pairIdx A i j hpjA hcmA
  have hcont1 : ∀ n, n ≠ "hidden" →
      (s.updateContainerByController i).contAttr j n = s.contAttr j n := by
    intro n hn
    rw [hu1, act_contAttr_frame A i j n hn]
    exact hcontA j n hn
  have hwt1 : (s.updateContainerByController i).willToggle = true := by
    rw [sameSkel_willToggle hskel1]
    exact hwt
  obtain ⟨B, hu2, hskelB, _, hcontB, _, hdisB, hctrlB⟩ :=
    update_deact_shape (s.updateContainerByController i) i hexpAt1 hwt1
  have hskelsB : SameSkel s B := sameSkel_trans hskel1 hskelB
  have hcmB : B.canMutateB i = true := by
    rw [sameSkel_canMutateB hskelsB]
    exact canMutateB_of_validPair hv
  have hwtB : B.willToggle = true := by
    rw [sameSkel_willToggle hskelsB]
    exact hwt
  have hpjB : B.pairIdxOf i = some j := by
    rw [sameSkel_pairIdxOf hskelsB]
    exact pairIdxOf_of_validPair hv
  intro n
  constructor
  · by_cases h1 : n = "aria-expanded"
    · subst h1
      rw [hu2, deact_expanded_self B i hcmB, hexp]
    · by_cases h2 : n = "aria-disabled"
      · subst h2
        rw [hu2, deact_disabled_wt B i i hwtB, hdisB i, hdis1]
      · rw [hu2, deact_ctrlAttr_frame B i i n h1 h2, hctrlB i n h1 h2, hctrl1 n h1 h2]
  · by_cases hn : n = "hidden"
    · subst hn
      rw [hu2, deact_hidden_of_pairIdx B i j hpjB hcmB, hhid]
    · rw [hu2, deact_contAttr_frame B i j n hn, hcontB j n hn, hcont1 n hn]

/-- Claim C7, counterexample to the claim as stated: a pair that is
collapsed via an ABSENT aria-expanded attribute ends the double toggle with
an explicit aria-expanded "false", so the original attribute set is not
restored exactly. -/
theorem C7_counterexample :
    (cexC7.validPairB 0 0 = true ∧ cexC7.willToggle = true ∧
      cexC7.expandedAt 0 = false ∧ cexC7.ctrlAttr 0 "aria-expanded" = none) ∧
    ((cexC7.updateContainerByController 0).updateContainerByController 0).ctrlAttr 0
        "aria-expanded" = some "false" := by decide

/-- Claim C7 witness: the amended theorem applied to the canonical collapsed
widget. -/
theorem C7_witness :
    (witC7.validPairB 0 0 = true ∧ witC7.willToggle = true ∧
      witC7.ctrlAttr 0 "aria-expanded" = some "false" ∧
      witC7.contAttr 0 "hidden" = some "") ∧
    (∀ n, ((witC7.updateContainerByController 0).updateContainerByController 0).ctrlAttr 0 n =
        witC7.ctrlAttr 0 n ∧
      ((witC7.updateContainerByController 0).updateContainerByController 0).contAttr 0 n =
        witC7.contAttr 0 n) :=
  ⟨⟨by decide, by decide, by decide, by decide⟩,
    C7_double_toggle witC7 0 0 (by decide) (by decide) (by decide) (by decide)⟩

/-- Claim C3, counterexample to the claim as stated: construction with no
root and no document match yields no Accordion value at all (the claim says
it succeeds with empty collections). -/
theorem C3_counterexample : (construct none none).toOption = none := rfl

/-- Claim C3 (amended). When no root reference is supplied and the document
contains no element matching the default root selector, construction fails
with a thrown TypeError (null dereference of this.root); no degraded widget
with empty sequences is produced. -/
theorem C3_throws : construct none none = Except.error "TypeError: this.root is null" := rfl

/-- Claim C8 (amended). After construction, every validly paired controller
whose markup aria-expanded was absent or exactly "false" is collapsed
(aria-expanded "false") and its container carries hidden. (The code's
filter is "absent or exactly false", not "not the explicit string true".) -/
theorem C8_default_collapse (r : RootElem) (i j : Nat)
    (hv : (preAccordion r).validPairB i j = true)
    (hexp : (preAccordion r).ctrlAttr i "aria-expanded" = none ∨
      (preAccordion r).ctrlAttr i "aria-expanded" = some "false") :
    (constructSome r).ctrlAttr i "aria-expanded" = some "false" ∧
      (constructSome r).contAttr j "hidden" = some "" := by
  obtain ⟨c, k, hc, hk, _, _, _⟩ := validPair_parts hv
  have hconstruct : constructSome r =
      (preAccordion r).deactFold
        ((List.range (preAccordion r).controllers.length).filter
          (fun i =>
            match (preAccordion r).controllers[i]? with
            | some c =>
              !(hasAttr c.attrs "aria-expanded") ||
                (getAttr c.attrs "aria-expanded" == some "false")
            | none => false)) := rfl
  have hmem : i ∈ (List.range (preAccordion r).controllers.length).filter
      (fun i =>
        match (preAccordion r).controllers[i]? with
        | some c =>
          !(hasAttr c.attrs "aria-expanded") ||
            (getAttr c.attrs "aria-expanded" == some "false")
        | none => false) := by
    rw [List.mem_filter, List.mem_range]
    refine ⟨validPair_lt hv, ?_⟩
    have hca : (preAccordion r).ctrlAttr i "aria-expanded" = getAttr c.attrs "aria-expanded" := by
      unfold Accordion.ctrlAttr
      rw [hc]
    simp only [hc]
    rcases hexp with hnone | hfalse
    · rw [hca] at hnone
      unfold hasAttr
      rw [hnone]
      rfl
    · rw [hca] at hfalse
      rw [hfalse]
      simp
  have hcm : (preAccordion r).canMutateB i = true := canMutateB_of_validPair hv
  constructor
  · rw [hconstruct]
    exact deactFold_expanded_false _ (preAccordion r) i hmem hcm
  · rw [hconstruct]
    exact deactFold_hidden_set _ (preAccordion r) i j hmem hcm (pairIdxOf_of_validPair hv)

/-- Claim C8, counterexample to the claim as stated: a controller marked up
aria-expanded "yes" (not the explicit string "true") is left untouched by
the default pass: it ends neither with aria-expanded "false" nor with a
hidden container. -/
theorem C8_counterexample :
    ((preAccordion cexC8r).validPairB 0 0 = true ∧
      (preAccordion cexC8r).ctrlAttr 0 "aria-expanded" = some "yes") ∧
    ((constructSome cexC8r).ctrlAttr 0 "aria-expanded" = some "yes" ∧
      (constructSome cexC8r).contAttr 0 "hidden" = none) := by decide

/-- Claim C8 witness: the amended theorem applied to a concrete markup with
an absent aria-expanded. -/
theorem C8_witness :
    ((preAccordion witC8r).validPairB 0 0 = true ∧
      (preAccordion witC8r).ctrlAttr 0 "aria-expanded" = none) ∧
    ((constructSome witC8r).ctrlAttr 0 "aria-expanded" = some "false" ∧
      (constructSome witC8r).contAttr 0 "hidden" = some "") :=
  ⟨⟨by decide, by decide⟩,
    C8_default_collapse witC8r 0 0 (by decide) (Or.inl (by decide))⟩

theorem jsIndexOf_head (x : Elem) (rest : List Elem) : jsIndexOf (x :: rest) x = 0 := by
  unfold jsIndexOf
  rw [if_pos rfl]

theorem getElem?_last {α : Type} (l : List α) (h : l ≠ []) :
    l[l.length - 1]? = some (l.getLast h) := by
  have hlen : 0 < l.length := List.length_pos.mpr h
  rw [List.getLast_eq_getElem]
  exact List.getElem?_eq_some_iff.mpr ⟨by omega, rfl⟩

theorem getElem?_head {α : Type} (l : List α) (h : l ≠ []) :
    l[0]? = some (l.head h) := by
  cases l with
  | nil => exact absurd rfl h
  | cons x rest => simp

theorem jsIndexOf_last_nodup :
    ∀ (l : List Elem) (h : l ≠ []), l.Nodup →
      jsIndexOf l (l.getLast h) = (l.length : Int) - 1 := by
  intro l
  induction l with
  | nil => intro h; exact absurd rfl h
  | cons x rest ih =>
    intro h hnd
    cases rest with
    | nil =>
      show jsIndexOf [x] ([x].getLast h) = _
      rw [show [x].getLast h = x from rfl, jsIndexOf_head]
      rfl
    | cons y t =>
      have hne : (y :: t) ≠ [] := by simp
      have hlast : (x :: y :: t).getLast h = (y :: t).getLast hne := List.getLast_cons hne
      have hxl : x ≠ (y :: t).getLast hne := by
        intro he
        have hmem := List.getLast_mem hne
        rw [← he] at hmem
        exact (List.nodup_cons.mp hnd).1 hmem
      have hstep : jsIndexOf (x :: y :: t) ((y :: t).getLast hne) =
          (if x = (y :: t).getLast hne then 0
           else if jsIndexOf (y :: t) ((y :: t).getLast hne) < 0 then -1
           else jsIndexOf (y :: t) ((y :: t).getLast hne) + 1) := rfl
      rw [hlast, hstep, if_neg hxl, ih hne (List.nodup_cons.mp hnd).2]
      have hc : ¬(((y :: t).length : Int) - 1 < 0) := by
        simp only [List.length_cons]
        omega
      rw [if_neg hc]
      simp only [List.length_cons]
      push_cast
      ring

/-- Claim C9. In a widget with a non-empty controllers sequence (distinct
nodes, as in a DOM node list), the previous-controller lookup on the first
controller yields the last and the next-controller lookup on the last
yields the first; the Home key focuses the controller at index 0 and the
End key the controller at index length-1, whatever controller the handler
is bound to. -/
theorem C9_navigation (s : Accordion) (hne : s.controllers ≠ [])
    (hnd : s.controllers.Nodup) (c : Elem) :
    s.getPrevController (s.controllers.head hne) = some (s.controllers.getLast hne) ∧
      s.getNextController (s.controllers.getLast hne) = some (s.controllers.head hne) ∧
      s.focusTargets c ⟨"Home", false⟩ = [s.controllers[0]?] ∧
      s.focusTargets c ⟨"End", false⟩ = [s.controllers[s.controllers.length - 1]?] := by
  refine ⟨?_, ?_, ?_, ?_⟩
  · unfold Accordion.getPrevController
    have h0 : jsIndexOf s.controllers (s.controllers.head hne) = 0 := by
      obtain ⟨x, rest, hl⟩ := List.exists_cons_of_ne_nil hne
      have hh : s.controllers.head hne = x := by
        simp [hl]
      rw [hh, hl]
      exact jsIndexOf_head x rest
    rw [h0]
    rw [if_neg (by norm_num)]
    unfold Accordion.getLastController
    exact getElem?_last s.controllers hne
  · unfold Accordion.getNextController
    rw [jsIndexOf_last_nodup s.controllers hne hnd]
    have hlen : 0 < s.controllers.length := List.length_pos.mpr hne
    rw [if_neg (by omega)]
    unfold Accordion.getFirstController
    exact getElem?_head s.controllers hne
  · have h1 : isKeyup ⟨"Home", false⟩ = false := by decide
    have h2 : isKeydown ⟨"Home", false⟩ = false := by decide
    have h3 : keyMatches "Home" "home" = true := by decide
    have h4 : keyMatches "Home" "end" = false := by decide
    unfold Accordion.focusTargets
    rw [h1, h2, h3, h4]
    simp [Accordion.getFirstController]
  · have h1 : isKeyup ⟨"End", false⟩ = false := by decide
    have h2 : isKeydown ⟨"End", false⟩ = false := by decide
    have h3 : keyMatches "End" "home" = false := by decide
    have h4 : keyMatches "End" "end" = true := by decide
    unfold Accordion.focusTargets
    rw [h1, h2, h3, h4]
    simp [Accordion.getLastController]

/-- Claim C9 witness: the theorem applied to a concrete three-controller
widget. -/
theorem C9_witness :
    (witC9.controllers ≠ [] ∧ witC9.controllers.Nodup) ∧
    (witC9.getPrevController (witC9.controllers.head (by decide)) =
        some (witC9.controllers.getLast (by decide)) ∧
      witC9.getNextController (witC9.controllers.getLast (by decide)) =
        some (witC9.controllers.head (by decide)) ∧
      witC9.focusTargets ⟨"c2", [("aria-controls", "k2")]⟩ ⟨"Home", false⟩ =
        [witC9.controllers[0]?] ∧
      witC9.focusTargets ⟨"c2", [("aria-controls", "k2")]⟩ ⟨"End", false⟩ =
        [witC9.controllers[witC9.controllers.length - 1]?]) :=
  ⟨⟨by decide, by decide⟩,
    C9_navigation witC9 (by decide) (by decide) ⟨"c2", [("aria-controls", "k2")]⟩⟩

theorem update_decompose (s : Accordion) (i : Nat) :
    ∃ A : Accordion, (A = s ∨ A = s.deactFold (s.activeIdxsExcept i)) ∧
      (s.updateContainerByController i = A ∨
        s.updateContainerByController i = A.activateContainerByController i ∨
        s.updateContainerByController i = A.deactivateContainerByController i) := by
  by_cases hm : s.allowManyContainers = true
  · refine ⟨s, Or.inl rfl, ?_⟩
    by_cases hexp : s.expandedAt i = true
    · exact Or.inr (Or.inr (update_eq_deact_many hm hexp (willToggle_of_many hm)))
    · have hexp' : s.expandedAt i = false := by
        revert hexp; cases s.expandedAt i <;> simp
      exact Or.inr (Or.inl (update_eq_act_many hm hexp'))
  · have hm' : s.allowManyContainers = false := by
      revert hm; cases s.allowManyContainers <;> simp
    refine ⟨s.deactFold (s.activeIdxsExcept i), Or.inr rfl, ?_⟩
    by_cases hexp : (s.deactFold (s.activeIdxsExcept i)).expandedAt i = true
    · by_cases hwt : (s.deactFold (s.activeIdxsExcept i)).willToggle = true
      · exact Or.inr (Or.inr (update_eq_deact hm' hexp hwt))
      · have hwt' : (s.deactFold (s.activeIdxsExcept i)).willToggle = false := by
          revert hwt; cases (s.deactFold (s.activeIdxsExcept i)).willToggle <;> simp
        exact Or.inl (update_eq_still hm' hexp hwt')
    · have hexp' : (s.deactFold (s.activeIdxsExcept i)).expandedAt i = false := by
        revert hexp; cases (s.deactFold (s.activeIdxsExcept i)).expandedAt i <;> simp
      exact Or.inr (Or.inl (update_eq_act hm' hexp'))

theorem update_sameSkel (s : Accordion) (i : Nat) :
    SameSkel s (s.updateContainerByController i) := by
  obtain ⟨A, hA, hu⟩ := update_decompose s i
  have hskelA : SameSkel s A := by
    rcases hA with hA | hA
    · rw [hA]
      exact sameSkel_rfl s
    · rw [hA]
      exact deactFold_sameSkel _ s
  rcases hu with hu | hu | hu
  · rw [hu]; exact hskelA
  · rw [hu]; exact sameSkel_trans hskelA (act_sameSkel A i)
  · rw [hu]; exact sameSkel_trans hskelA (deact_sameSkel A i)

theorem sameSkel_ctrlId {s t : Accordion} (h : SameSkel s t) (p : Nat) :
    t.ctrlId p = s.ctrlId p := by
  unfold Accordion.ctrlId
  exact map_proj_getElem? Elem.id h.2.1 p

theorem sameSkel_contId {s t : Accordion} (h : SameSkel s t) (q : Nat) :
    t.contId q = s.contId q := by
  unfold Accordion.contId
  exact map_proj_getElem? Elem.id h.2.2.2.1 q

/-- Claim C10. A toggle invocation leaves the root attributes, the lengths
of both sequences, every element identifier, and every controller attribute
other than aria-expanded or aria-disabled and every container attribute
other than hidden unchanged. -/
theorem C10_frame (s : Accordion) (i : Nat) :
    (s.updateContainerByController i).root = s.root ∧
      (s.updateContainerByController i).controllers.length = s.controllers.length ∧
      (s.updateContainerByController i).containers.length = s.containers.length ∧
      (∀ p, (s.updateContainerByController i).ctrlId p = s.ctrlId p) ∧
      (∀ q, (s.updateContainerByController i).contId q = s.contId q) ∧
      (∀ p n, n ≠ "aria-expanded" → n ≠ "aria-disabled" →
        (s.updateContainerByController i).ctrlAttr p n = s.ctrlAttr p n) ∧
      (∀ q n, n ≠ "hidden" →
        (s.updateContainerByController i).contAttr q n = s.contAttr q n) := by
  have hskel := update_sameSkel s i
  obtain ⟨A, hA, hu⟩ := update_decompose s i
  have hAframeC : ∀ p n, n ≠ "aria-expanded" → n ≠ "aria-disabled" →
      A.ctrlAttr p n = s.ctrlAttr p n := by
    rcases hA with hA | hA
    · rw [hA]
      intro p n _ _
      rfl
    · rw [hA]
      intro p n h1 h2
      exact deactFold_ctrlAttr_frame _ s p n h1 h2
  have hAframeK : ∀ q n, n ≠ "hidden" → A.contAttr q n = s.contAttr q n := by
    rcases hA with hA | hA
    · rw [hA]
      intro q n _
      rfl
    · rw [hA]
      intro q n hn
      exact deactFold_contAttr_frame _ s q n hn
  refine ⟨hskel.1, sameSkel_lenC hskel, sameSkel_lenK hskel,
    fun p => sameSkel_ctrlId hskel p, fun q => sameSkel_contId hskel q, ?_, ?_⟩
  · intro p n h1 h2
    rcases hu with hu | hu | hu
    · rw [hu]; exact hAframeC p n h1 h2
    · rw [hu, act_ctrlAttr_frame A i p n h1 h2]; exact hAframeC p n h1 h2
    · rw [hu, deact_ctrlAttr_frame A i p n h1 h2]; exact hAframeC p n h1 h2
  · intro q n hn
    rcases hu with hu | hu | hu
    · rw [hu]; exact hAframeK q n hn
    · rw [hu, act_contAttr_frame A i q n hn]; exact hAframeK q n hn
    · rw [hu, deact_contAttr_frame A i q n hn]; exact hAframeK q n hn

/-- Claim C10 witness: the frame theorem applied to a concrete widget at the
attribute "class". -/
theorem C10_witness :
    ("class" ≠ "aria-expanded" ∧ "class" ≠ "aria-disabled" ∧ "class" ≠ "hidden") ∧
    ((witC10.updateContainerByController 0).root = witC10.root ∧
      (witC10.updateContainerByController 0).ctrlId 0 = witC10.ctrlId 0 ∧
      (witC10.updateContainerByController 0).contId 0 = witC10.contId 0 ∧
      (witC10.updateContainerByController 0).ctrlAttr 0 "class" = witC10.ctrlAttr 0 "class" ∧
      (witC10.updateContainerByController 0).ctrlAttr 0 "aria-controls" =
        witC10.ctrlAttr 0 "aria-controls" ∧
      (witC10.updateContainerByController 0).contAttr 0 "class" = witC10.contAttr 0 "class" ∧
      (witC10.updateContainerByController 0).contAttr 0 "aria-labelledby" =
        witC10.contAttr 0 "aria-labelledby") :=
  ⟨⟨by decide, by decide, by decide⟩,
    (C10_frame witC10 0).1,
    (C10_frame witC10 0).2.2.2.1 0,
    (C10_frame witC10 0).2.2.2.2.1 0,
    (C10_frame witC10 0).2.2.2.2.2.1 0 "class" (by decide) (by decide),
    (C10_frame witC10 0).2.2.2.2.2.1 0 "aria-controls" (by decide) (by decide),
    (C10_frame witC10 0).2.2.2.2.2.2 0 "class" (by decide),
    (C10_frame witC10 0).2.2.2.2.2.2 0 "aria-labelledby" (by decide)⟩

theorem hasAttr_setAttr_self (a : AttrMap) (n v : String) :
    hasAttr (setAttr a n v) n = true := by
  unfold hasAttr
  rw [getAttr_setAttr_self]
  rfl

theorem hasAttr_removeAttr_self (a : AttrMap) (n : String) :
    hasAttr (removeAttr a n) n = false := by
  unfold hasAttr
  rw [getAttr_removeAttr_self]
  rfl

theorem noOtherRef_spec {s : Accordion} {i j : Nat} (h : s.noOtherRefB i j = true) :
    ∀ p c k, p ≠ i → s.controllers[p]? = some c → s.containers[j]? = some k →
      getAttr c.attrs "aria-controls" ≠ some k.id := by
  intro p c k hpi hc hk hcon
  have hp : p < s.controllers.length := (List.getElem?_eq_some_iff.mp hc).1
  have hall := List.all_eq_true.mp h p (List.mem_range.mpr hp)
  simp only [hc, hk] at hall
  rcases Bool.or_eq_true_iff.mp hall with hcase | hcase
  · exact hpi (by simpa using hcase)
  · rw [hcon] at hcase
    simp at hcase

theorem findIdx_ref {s : Accordion} {c : Elem} {y : Nat} (h : s.findContainerIdx c = some y) :
    ∃ k, s.containers[y]? = some k ∧ getAttr c.attrs "aria-controls" = some k.id := by
  unfold Accordion.findContainerIdx at h
  obtain ⟨d, hd, href⟩ := idxOfMatch_found _ _ _ h
  rw [List.getElem?_map] at hd
  cases hk : s.containers[y]? with
  | none => rw [hk] at hd; simp at hd
  | some k =>
    rw [hk] at hd
    simp only [Option.map_some', Option.some.injEq] at hd
    exact ⟨k, rfl, by rw [href, hd]⟩

theorem deact_pairEquiv {s : Accordion} {i j : Nat} (x : Nat)
    (hv : s.validPairB i j = true) (hnr : s.noOtherRefB i j = true)
    (he : s.pairEquivB i j = true) :
    (s.deactivateContainerByController x).pairEquivB i j = true := by
  cases hcm : s.canMutateB x with
  | false => rw [deact_eq, applyPair_no _ _ hcm]; exact he
  | true =>
    rw [deact_eq]
    obtain ⟨c, y, k, hc, hy, hk, _, _, heq⟩ := applyPair_yes
      (deactCtrlAttrs s.willToggle) (fun a => setAttr a "hidden" "") hcm
    obtain ⟨c0, k0, hc0, hk0, _, _, hidx0⟩ := validPair_parts hv
    by_cases hxi : x = i
    · subst hxi
      rw [hc0] at hc
      injection hc with e
      subst e
      rw [hidx0] at hy
      injection hy with e
      subst e
      unfold Accordion.pairEquivB Accordion.expandedAt Accordion.isControllerExpanded
      rw [heq]
      simp only [set_getElem?_some hk, set_getElem?_some hc0]
      rw [deactCtrlAttrs_expanded]
      rw [hasAttr_setAttr_self]
      simp
    · have hyj : y ≠ j := by
        intro he2
        subst he2
        obtain ⟨ky, hky, href⟩ := findIdx_ref hy
        rw [hky] at hk0
        injection hk0 with e
        subst e
        exact noOtherRef_spec hnr x c ky hxi hc hky href
      unfold Accordion.pairEquivB Accordion.expandedAt Accordion.isControllerExpanded
      rw [heq]
      simp only [List.getElem?_set_ne hyj, List.getElem?_set_ne hxi]
      unfold Accordion.pairEquivB Accordion.expandedAt Accordion.isControllerExpanded at he
      exact he

theorem act_pairEquiv {s : Accordion} {i j : Nat} (x : Nat)
    (hv : s.validPairB i j = true) (hnr : s.noOtherRefB i j = true)
    (he : s.pairEquivB i j = true) :
    (s.activateContainerByController x).pairEquivB i j = true := by
  cases hcm : s.canMutateB x with
  | false => rw [act_eq, applyPair_no _ _ hcm]; exact he
  | true =>
    rw [act_eq]
    obtain ⟨c, y, k, hc, hy, hk, _, _, heq⟩ := applyPair_yes
      (actCtrlAttrs s.willToggle) (fun a => removeAttr a "hidden") hcm
    obtain ⟨c0, k0, hc0, hk0, _, _, hidx0⟩ := validPair_parts hv
    by_cases hxi : x = i
    · subst hxi
      rw [hc0] at hc
      injection hc with e
      subst e
      rw [hidx0] at hy
      injection hy with e
      subst e
      unfold Accordion.pairEquivB Accordion.expandedAt Accordion.isControllerExpanded
      rw [heq]
      simp only [set_getElem?_some hk, set_getElem?_some hc0]
      rw [actCtrlAttrs_expanded]
      rw [hasAttr_removeAttr_self]
      simp
    · have hyj : y ≠ j := by
        intro he2
        subst he2
        obtain ⟨ky, hky, href⟩ := findIdx_ref hy
        rw [hky] at hk0
        injection hk0 with e
        subst e
        exact noOtherRef_spec hnr x c ky hxi hc hky href
      unfold Accordion.pairEquivB Accordion.expandedAt Accordion.isControllerExpanded
      rw [heq]
      simp only [List.getElem?_set_ne hyj, List.getElem?_set_ne hxi]
      unfold Accordion.pairEquivB Accordion.expandedAt Accordion.isControllerExpanded at he
      exact he

theorem deactFold_pairEquiv (xs : List Nat) :
    ∀ (s : Accordion) (i j : Nat), s.validPairB i j = true → s.noOtherRefB i j = true →
      s.pairEquivB i j = true → (s.deactFold xs).pairEquivB i j = true := by
  induction xs with
  | nil => intro s i j _ _ he; exact he
  | cons x rest ih =>
    intro s i j hv hnr he
    unfold Accordion.deactFold at ih ⊢
    simp only [List.foldl_cons]
    have hskel := deact_sameSkel s x
    refine ih _ i j ?_ ?_ ?_
    · rw [sameSkel_validPairB hskel]; exact hv
    · rw [sameSkel_noOtherRefB hskel]; exact hnr
    · exact deact_pairEquiv x hv hnr he

theorem update_pairEquiv (s : Accordion) (i j t : Nat)
    (hv : s.validPairB i j = true) (hnr : s.noOtherRefB i j = true)
    (he : s.pairEquivB i j = true) :
    (s.updateContainerByController t).pairEquivB i j = true := by
  obtain ⟨A, hA, hu⟩ := update_decompose s t
  have hskelA : SameSkel s A := by
    rcases hA with hA | hA
    · rw [hA]; exact sameSkel_rfl s
    · rw [hA]; exact deactFold_sameSkel _ s
  have hvA : A.validPairB i j = true := by
    rw [sameSkel_validPairB hskelA]; exact hv
  have hnrA : A.noOtherRefB i j = true := by
    rw [sameSkel_noOtherRefB hskelA]; exact hnr
  have heA : A.pairEquivB i j = true := by
    rcases hA with hA | hA
    · rw [hA]; exact he
    · rw [hA]; exact deactFold_pairEquiv _ s i j hv hnr he
  rcases hu with hu | hu | hu
  · rw [hu]; exact heA
  · rw [hu]; exact act_pairEquiv t hvA hnrA heA
  · rw [hu]; exact deact_pairEquiv t hvA hnrA heA

/-- Claim C4 (amended). For a validly paired controller/container pair whose
container id is referenced by no other controller, if the visibility
equivalence (container unhidden iff controller aria-expanded "true") holds
in a state, it holds after any sequence of toggle operations. (As stated
the claim is false: initialization does not establish the equivalence for a
pair marked up expanded with a hidden container.) -/
theorem C4_visibility_invariant (s : Accordion) (i j : Nat) (ts : List Nat)
    (hv : s.validPairB i j = true) (hnr : s.noOtherRefB i j = true)
    (he : s.pairEquivB i j = true) :
    (s.runToggles ts).pairEquivB i j = true := by
  induction ts generalizing s with
  | nil => exact he
  | cons t rest ih =>
    unfold Accordion.runToggles at ih ⊢
    simp only [List.foldl_cons]
    have hskel := update_sameSkel s t
    refine ih _ ?_ ?_ ?_
    · rw [sameSkel_validPairB hskel]; exact hv
    · rw [sameSkel_noOtherRefB hskel]; exact hnr
    · exact update_pairEquiv s i j t hv hnr he

/-- Claim C4, counterexample to the claim as stated: a valid pair marked up
with aria-expanded "true" and a hidden container keeps that inconsistency
through initialization, so the post-initialization state itself (zero
toggles) violates the equivalence. -/
theorem C4_counterexample :
    ((constructSome cexC4r).validPairB 0 0 = true ∧
      (constructSome cexC4r).runToggles [] = constructSome cexC4r) ∧
    ((constructSome cexC4r).expandedAt 0 = true ∧
      (constructSome cexC4r).contHidden 0 = true ∧
      (constructSome cexC4r).pairEquivB 0 0 = false) := by decide

/-- Claim C4 witness: the invariant carried through a concrete four-toggle
run. -/
theorem C4_witness :
    (witC4.validPairB 0 0 = true ∧ witC4.noOtherRefB 0 0 = true ∧
      witC4.pairEquivB 0 0 = true) ∧
    (witC4.runToggles [1, 0, 0, 1]).pairEquivB 0 0 = true :=
  ⟨⟨by decide, by decide, by decide⟩,
    C4_visibility_invariant witC4 0 0 [1, 0, 0, 1] (by decide) (by decide) (by decide)⟩
